import Mathlib

/-!
# Verification of the cycloidal-reducer geometry/physics engine

Shallow embedding of the core geometry code of the Cycloidal-Reducer-Design-Tool
repository (`src/utils/geometry.ts`, `src/utils/dxf.ts` and the `types.ts`
data model), together with proofs and refutations of the frozen claims about it.

JavaScript `number` arithmetic is modelled over the real numbers `ℝ`; the
constant `Number.MAX_VALUE` is modelled by its exact real value, `Math.atan2`
by an explicit case split, and `toFixed`/`parseFloat` rounding by explicit
integer-floor rounding.  The `isNaN` guard of the source never fires over `ℝ`
and is dropped.
-/

open Real

noncomputable section

/-- `driveConfig ∈ {housingFixed, outputFixed}` from `types.ts`. -/
inductive DriveConfig where
  | housingFixed : DriveConfig
  | outputFixed : DriveConfig
deriving DecidableEq

/-- The `CycloParams` record of `types.ts`.  `pinCount` and the two counts are
integers per the data model; `resolution` is the integer sample density. -/
structure CycloParams where
  pinCount : ℕ
  pinCircleRadius : ℝ
  pinRadius : ℝ
  eccentricity : ℝ
  holeRadius : ℝ
  resolution : ℕ
  tolerance : ℝ
  holeTolerance : ℝ
  outputPinCount : ℕ
  outputPinRadius : ℝ
  outputPinCircleRadius : ℝ
  driveConfig : DriveConfig

instance : DecidableEq CycloParams := fun _ _ => Classical.propDecidable _

/-- The `Point` record of `types.ts`.  The geometry code always fills the
positions and normals of the points it emits; the physics fields stay
optional exactly as in the source. -/
structure Point where
  x : ℝ
  y : ℝ
  nx : ℝ
  ny : ℝ
  pressureAngle : Option ℝ := none
  curvatureRadius : Option ℝ := none

/-- The degeneracy threshold `1e-6` of `generateCycloidProfile` and
`calculatePhysicsMetrics`. -/
def tangentEps : ℝ := 1 / 1000000

/-- The sample parameter `t = (i / resolution) * 2 * Math.PI` of the loops in
`geometry.ts`. -/
def tAt (params : CycloParams) (i : ℕ) : ℝ :=
  ((i : ℝ) / (params.resolution : ℝ)) * (2 * π)

/-- `dxdt = -R*sin(t) + E*N*sin(N*t)` at sample `i`. -/
def dxdtAt (params : CycloParams) (i : ℕ) : ℝ :=
  -params.pinCircleRadius * Real.sin (tAt params i) +
    params.eccentricity * (params.pinCount : ℝ) *
      Real.sin ((params.pinCount : ℝ) * tAt params i)

/-- `dydt = R*cos(t) - E*N*cos(N*t)` at sample `i`. -/
def dydtAt (params : CycloParams) (i : ℕ) : ℝ :=
  params.pinCircleRadius * Real.cos (tAt params i) -
    params.eccentricity * (params.pinCount : ℝ) *
      Real.cos ((params.pinCount : ℝ) * tAt params i)

/-- `len = sqrt(dxdt*dxdt + dydt*dydt)` at sample `i`.  The tangent length is
independent of the tolerance, which only offsets the emitted point. -/
def tangentLen (params : CycloParams) (i : ℕ) : ℝ :=
  Real.sqrt (dxdtAt params i * dxdtAt params i + dydtAt params i * dydtAt params i)

/-- One iteration of the `generateCycloidProfile` loop: the sample is dropped
(`none`) when the tangent degenerates, otherwise the offset point with its
inward unit normal is emitted. -/
def profileSample (params : CycloParams) (effTol : ℝ) (i : ℕ) : Option Point :=
  let N : ℝ := params.pinCount
  let R := params.pinCircleRadius
  let r := params.pinRadius + effTol
  let E := params.eccentricity
  let t := tAt params i
  let sx := R * Real.cos t - E * Real.cos (N * t)
  let sy := R * Real.sin t - E * Real.sin (N * t)
  let len := tangentLen params i
  if len < tangentEps then none
  else
    let nx := -(dydtAt params i) / len
    let ny := dxdtAt params i / len
    some { x := sx + r * nx, y := sy + r * ny, nx := nx, ny := ny }

/-- `generateCycloidProfile` from `src/utils/geometry.ts`: samples
`i = 0 .. resolution`, drops degenerate tangents, and offsets the epitrochoid
locus by `pinRadius + effectiveTolerance` along the inward normal. -/
def generateCycloidProfile (params : CycloParams) (overrideTolerance : Option ℝ) :
    List Point :=
  let effTol := overrideTolerance.getD params.tolerance
  (List.range (params.resolution + 1)).filterMap (profileSample params effTol)

/-- The point shift realised by raising the tolerance from `0` to `tol`:
a displacement of exactly `tol` along the point's stored inward normal. -/
def shiftByTol (tol : ℝ) (q : Point) : Point :=
  { q with x := q.x + tol * q.nx, y := q.y + tol * q.ny }

lemma profileSample_shift (params : CycloParams) (tol : ℝ) (i : ℕ) :
    profileSample params tol i = (profileSample params 0 i).map (shiftByTol tol) := by
  unfold profileSample
  by_cases h : tangentLen params i < tangentEps
  · simp [h]
  · simp only [h, if_false, Option.map_some]
    refine congrArg some ?_
    unfold shiftByTol
    simp only [Point.mk.injEq, and_true, true_and]
    constructor <;> ring

lemma generateCycloidProfile_shift (params : CycloParams) (tol : ℝ) :
    generateCycloidProfile params (some tol) =
      (generateCycloidProfile params (some 0)).map (shiftByTol tol) := by
  unfold generateCycloidProfile
  simp only [Option.getD_some]
  rw [List.map_filterMap]
  exact List.filterMap_congr (fun i _ => profileSample_shift params tol i)

/-- **C1.**  For every parameter set and every tolerance `tol ≥ 0`, the profile
generated with tolerance `tol` has the same length as the zero-tolerance
profile, corresponding points carry the same inward unit normal, and every
point of the `tol` profile is the corresponding zero-tolerance point
displaced by exactly `tol` along that normal. -/
theorem profile_tolerance_offsets_inward (params : CycloParams) (tol : ℝ)
    (htol : 0 ≤ tol) :
    (generateCycloidProfile params (some tol)).length =
        (generateCycloidProfile params (some 0)).length ∧
      ∀ (i : ℕ) (h1 : i < (generateCycloidProfile params (some tol)).length)
        (h0 : i < (generateCycloidProfile params (some 0)).length),
        ((generateCycloidProfile params (some tol)).get ⟨i, h1⟩).nx =
            ((generateCycloidProfile params (some 0)).get ⟨i, h0⟩).nx ∧
          ((generateCycloidProfile params (some tol)).get ⟨i, h1⟩).ny =
            ((generateCycloidProfile params (some 0)).get ⟨i, h0⟩).ny ∧
          ((generateCycloidProfile params (some tol)).get ⟨i, h1⟩).x =
            ((generateCycloidProfile params (some 0)).get ⟨i, h0⟩).x +
              tol * ((generateCycloidProfile params (some 0)).get ⟨i, h0⟩).nx ∧
          ((generateCycloidProfile params (some tol)).get ⟨i, h1⟩).y =
            ((generateCycloidProfile params (some 0)).get ⟨i, h0⟩).y +
              tol * ((generateCycloidProfile params (some 0)).get ⟨i, h0⟩).ny := by
  constructor
  · rw [generateCycloidProfile_shift params tol, List.length_map]
  · intro i h1 h0
    have hmap := generateCycloidProfile_shift params tol
    have hget : (generateCycloidProfile params (some tol)).get ⟨i, h1⟩ =
        shiftByTol tol ((generateCycloidProfile params (some 0)).get ⟨i, h0⟩) := by
      have := List.get_of_eq hmap ⟨i, h1⟩
      rw [this]
      simp [List.get_map]
    rw [hget]
    unfold shiftByTol
    exact ⟨rfl, rfl, rfl, rfl⟩

/-- Witness for C1 at a concrete parameter set and tolerance `1`. -/
theorem profile_tolerance_offsets_inward_witness :
    (0 : ℝ) ≤ 1 ∧
      ((generateCycloidProfile
            ⟨12, 50, 5, 1.5, 10, 720, 0.15, 0.1, 6, 5, 25, .housingFixed⟩
            (some 1)).length =
          (generateCycloidProfile
            ⟨12, 50, 5, 1.5, 10, 720, 0.15, 0.1, 6, 5, 25, .housingFixed⟩
            (some 0)).length) := by
  refine ⟨by norm_num, ?_⟩
  exact (profile_tolerance_offsets_inward
    ⟨12, 50, 5, 1.5, 10, 720, 0.15, 0.1, 6, 5, 25, .housingFixed⟩ 1
    (by norm_num)).1

lemma profileSample_isSome_iff (params : CycloParams) (effTol : ℝ) (i : ℕ) :
    (profileSample params effTol i).isSome = true ↔ tangentEps ≤ tangentLen params i := by
  unfold profileSample
  by_cases h : tangentLen params i < tangentEps
  · simp only [h, if_true, Option.isSome_none]
    constructor
    · intro hfalse
      exact absurd hfalse (by simp)
    · intro hle
      exact absurd hle (not_le.mpr h)
  · simp only [h, if_false, Option.isSome_some, true_iff]
    exact not_lt.mp h

/-- **C6 (amended).**  `generateCycloidProfile` is total; its output has one
point per sample whose tangent magnitude reaches `1e-6` (degenerate samples
being dropped, not substituted), hence at most `resolution + 1` points.  The
output can be empty when every sample degenerates (see the counterexample). -/
theorem profile_drop_policy (params : CycloParams) (o : Option ℝ) :
    (generateCycloidProfile params o).length =
        (List.range (params.resolution + 1)).countP
          (fun i => decide (tangentEps ≤ tangentLen params i)) ∧
      (generateCycloidProfile params o).length ≤ params.resolution + 1 := by
  have hlen : (generateCycloidProfile params o).length =
      (List.range (params.resolution + 1)).countP
        (fun i => (profileSample params (o.getD params.tolerance) i).isSome) := by
    unfold generateCycloidProfile
    exact List.length_filterMap_eq_countP _ _
  constructor
  · rw [hlen]
    refine List.countP_congr (fun i _ => ?_)
    rw [profileSample_isSome_iff]
    simp
  · rw [hlen]
    calc (List.range (params.resolution + 1)).countP _ ≤
        (List.range (params.resolution + 1)).length := List.countP_le_length _
    _ = params.resolution + 1 := List.length_range _

/-- Fully degenerate parameter set for the C6 counterexample: `N = 7`,
`R = 7`, `E = 1`, so the tangent vanishes at every sample of the
`resolution = 3` grid. -/
def c6cex : CycloParams := ⟨7, 7, 1, 1, 10, 3, 0.15, 0.1, 6, 5, 25, .housingFixed⟩

lemma c6cex_tAt (i : ℕ) : tAt c6cex i = ((i : ℝ) / 3) * (2 * π) := by
  unfold tAt c6cex
  norm_num

lemma c6cex_sin7 (i : ℕ) :
    Real.sin ((c6cex.pinCount : ℝ) * tAt c6cex i) = Real.sin (tAt c6cex i) := by
  have h7 : (c6cex.pinCount : ℝ) * tAt c6cex i =
      tAt c6cex i + ((2 * (i : ℤ)) : ℤ) * (2 * π) := by
    rw [c6cex_tAt]
    show ((7 : ℕ) : ℝ) * _ = _
    push_cast
    ring
  rw [h7, Real.sin_add_int_mul_two_pi]

lemma c6cex_cos7 (i : ℕ) :
    Real.cos ((c6cex.pinCount : ℝ) * tAt c6cex i) = Real.cos (tAt c6cex i) := by
  have h7 : (c6cex.pinCount : ℝ) * tAt c6cex i =
      tAt c6cex i + ((2 * (i : ℤ)) : ℤ) * (2 * π) := by
    rw [c6cex_tAt]
    show ((7 : ℕ) : ℝ) * _ = _
    push_cast
    ring
  rw [h7, Real.cos_add_int_mul_two_pi]

lemma c6cex_tangentLen (i : ℕ) : tangentLen c6cex i = 0 := by
  have hdx : dxdtAt c6cex i = 0 := by
    unfold dxdtAt
    rw [c6cex_sin7]
    show -(7 : ℝ) * _ + 1 * ((7 : ℕ) : ℝ) * _ = 0
    push_cast
    ring
  have hdy : dydtAt c6cex i = 0 := by
    unfold dydtAt
    rw [c6cex_cos7]
    show (7 : ℝ) * _ - 1 * ((7 : ℕ) : ℝ) * _ = 0
    push_cast
    ring
  unfold tangentLen
  rw [hdx, hdy]
  simp

/-- **C6 counterexample.**  A parameter set satisfying all the data-model
constraints with `resolution = 3` for which `generateCycloidProfile` returns
the empty sequence: every sample of the grid is degenerate, so the claimed
guaranteed non-emptiness fails. -/
theorem res3_profile_can_be_empty :
    4 ≤ c6cex.pinCount ∧ 0 < c6cex.pinCircleRadius ∧ 0 < c6cex.pinRadius ∧
      0 ≤ c6cex.eccentricity ∧ c6cex.resolution = 3 ∧
      generateCycloidProfile c6cex none = [] := by
  refine ⟨by norm_num [c6cex], by norm_num [c6cex], by norm_num [c6cex],
    by norm_num [c6cex], by norm_num [c6cex], ?_⟩
  unfold generateCycloidProfile
  apply List.filterMap_eq_nil_iff.mpr
  intro i _
  unfold profileSample
  rw [if_pos]
  rw [c6cex_tangentLen]
  unfold tangentEps
  norm_num

/-- `Number.MAX_VALUE`, the largest finite IEEE-754 double, as an exact
real number. -/
def numberMaxValue : ℝ := 2 ^ 1024 - 2 ^ 971

/-- JavaScript `Math.atan2` over the reals (real numbers carry no signed
zero, so the negative-zero special cases collapse). -/
def atan2 (y x : ℝ) : ℝ :=
  if 0 < x then Real.arctan (y / x)
  else if x = 0 then (if 0 < y then π / 2 else if y < 0 then -(π / 2) else 0)
  else if 0 ≤ y then Real.arctan (y / x) + π
  else Real.arctan (y / x) - π

/-- One iteration of the `calculatePhysicsMetrics` loop of
`src/utils/geometry.ts`: pressure angle, curvature radius and the enriched
point, or `none` for a degenerate sample. -/
def physicsSample (params : CycloParams) (i : ℕ) : Option Point :=
  let N : ℝ := params.pinCount
  let R := params.pinCircleRadius
  let E := params.eccentricity
  let r := params.pinRadius
  let t := tAt params i
  let len := tangentLen params i
  if len < tangentEps then none
  else
    let K := E * N / R
    let num := K * Real.sin (N * t)
    let den := 1 - K * Real.cos (N * t)
    let pressureRad := atan2 |num| |den|
    let pressureDeg := pressureRad * (180 / π)
    let phi := (N - 1) * t
    let term1 := R * R + E * E * N * N - 2 * R * E * N * Real.cos phi
    let numerator := term1 ^ (1.5 : ℝ)
    let denominator := R * R + E * E * N * N * N - R * E * N * (N + 1) * Real.cos phi
    let rho := numerator / denominator
    let surfaceCurvature := rho - r
    let nx := -(dydtAt params i) / len
    let ny := dxdtAt params i / len
    let sx := R * Real.cos t - E * Real.cos (N * t)
    let sy := R * Real.sin t - E * Real.sin (N * t)
    some { x := sx + r * nx, y := sy + r * ny, nx := nx, ny := ny,
           pressureAngle := some pressureDeg,
           curvatureRadius := some surfaceCurvature }

/-- The `minCurvatureRadius` accumulator update of the source:
keep the smaller absolute value, preserving sign. -/
def minAbsStep (m c : ℝ) : ℝ := if |c| < |m| then c else m

/-- The `maxPressureAngle` accumulator update of the source:
running maximum. -/
def runMaxStep (m a : ℝ) : ℝ := if a > m then a else m

/-- The `PhysicsMetrics` record of `types.ts`. -/
structure PhysicsMetrics where
  minCurvatureRadius : ℝ
  maxPressureAngle : ℝ
  points : List Point

/-- `calculatePhysicsMetrics` from `src/utils/geometry.ts`: the loop is
rendered as a `filterMap` over the sample grid plus folds of the two
accumulator updates over the emitted samples (skipped iterations update
nothing, so this matches the source loop). -/
def calculatePhysicsMetrics (params : CycloParams) : PhysicsMetrics :=
  let samples := (List.range (params.resolution + 1)).filterMap (physicsSample params)
  { minCurvatureRadius := samples.foldl
      (fun m q => match q.curvatureRadius with
        | some c => minAbsStep m c
        | none => m) numberMaxValue,
    maxPressureAngle := samples.foldl
      (fun m q => match q.pressureAngle with
        | some a => runMaxStep m a
        | none => m) 0,
    points := samples }

/-- The pressure angle in degrees computed for sample `i`:
`atan2(|K sin(Nt)|, |1 - K cos(Nt)|) * 180/π` with `K = E*N/R`. -/
def pressureDegAt (params : CycloParams) (i : ℕ) : ℝ :=
  atan2
    |params.eccentricity * (params.pinCount : ℝ) / params.pinCircleRadius *
      Real.sin ((params.pinCount : ℝ) * tAt params i)|
    |1 - params.eccentricity * (params.pinCount : ℝ) / params.pinCircleRadius *
      Real.cos ((params.pinCount : ℝ) * tAt params i)| * (180 / π)

/-- The signed surface curvature `ρ - pinRadius` computed for sample `i`. -/
def surfaceCurvatureAt (params : CycloParams) (i : ℕ) : ℝ :=
  let N : ℝ := params.pinCount
  let R := params.pinCircleRadius
  let E := params.eccentricity
  (R * R + E * E * N * N - 2 * R * E * N * Real.cos ((N - 1) * tAt params i)) ^ (1.5 : ℝ) /
      (R * R + E * E * N * N * N - R * E * N * (N + 1) * Real.cos ((N - 1) * tAt params i)) -
    params.pinRadius

lemma physicsSample_eq_none_iff (params : CycloParams) (i : ℕ) :
    physicsSample params i = none ↔ tangentLen params i < tangentEps := by
  unfold physicsSample
  by_cases h : tangentLen params i < tangentEps
  · simp [h]
  · simp [h]

lemma physicsSample_proj (params : CycloParams) (i : ℕ)
    (h : tangentEps ≤ tangentLen params i) :
    (physicsSample params i).map
        (fun q => (q.pressureAngle, q.curvatureRadius)) =
      some (some (pressureDegAt params i), some (surfaceCurvatureAt params i)) := by
  unfold physicsSample
  rw [if_neg (not_lt.mpr h)]
  unfold pressureDegAt surfaceCurvatureAt
  rfl

lemma physicsSample_some_proj (params : CycloParams) (i : ℕ) (q : Point)
    (h : physicsSample params i = some q) :
    q.pressureAngle = some (pressureDegAt params i) ∧
      q.curvatureRadius = some (surfaceCurvatureAt params i) := by
  have hemit : tangentEps ≤ tangentLen params i := by
    by_contra hc
    rw [not_le] at hc
    rw [(physicsSample_eq_none_iff params i).mpr hc] at h
    exact Option.noConfusion h
  have := physicsSample_proj params i hemit
  rw [h] at this
  simp only [Option.map_some', Option.some.injEq, Prod.mk.injEq] at this
  exact this

lemma foldl_curv_bridge (l : List Point) (init : ℝ)
    (h : ∀ q ∈ l, q.curvatureRadius.isSome = true) :
    l.foldl (fun m q => match q.curvatureRadius with
        | some c => minAbsStep m c
        | none => m) init =
      (l.map (fun q => q.curvatureRadius.getD 0)).foldl minAbsStep init := by
  induction l generalizing init with
  | nil => rfl
  | cons a t ih =>
    obtain ⟨c, hc⟩ := Option.isSome_iff_exists.mp (h a (List.mem_cons_self a t))
    simp only [List.foldl_cons, List.map_cons, hc, Option.getD_some]
    exact ih _ (fun q hq => h q (List.mem_cons_of_mem a hq))

lemma foldl_press_bridge (l : List Point) (init : ℝ)
    (h : ∀ q ∈ l, q.pressureAngle.isSome = true) :
    l.foldl (fun m q => match q.pressureAngle with
        | some a => runMaxStep m a
        | none => m) init =
      (l.map (fun q => q.pressureAngle.getD 0)).foldl runMaxStep init := by
  induction l generalizing init with
  | nil => rfl
  | cons a t ih =>
    obtain ⟨v, hv⟩ := Option.isSome_iff_exists.mp (h a (List.mem_cons_self a t))
    simp only [List.foldl_cons, List.map_cons, hv, Option.getD_some]
    exact ih _ (fun q hq => h q (List.mem_cons_of_mem a hq))

lemma foldl_minAbsStep_no_improve (l : List ℝ) (init : ℝ)
    (h : ∀ x ∈ l, |init| ≤ |x|) : l.foldl minAbsStep init = init := by
  induction l with
  | nil => rfl
  | cons a t ih =>
    have hstep : minAbsStep init a = init := by
      unfold minAbsStep
      rw [if_neg (not_lt.mpr (h a (List.mem_cons_self a t)))]
    rw [List.foldl_cons, hstep]
    exact ih (fun x hx => h x (List.mem_cons_of_mem a hx))

lemma foldl_minAbsStep_first_min (l : List ℝ) (j : ℕ) (init : ℝ) (hj : j < l.length)
    (hmin : ∀ (k : ℕ) (hk : k < l.length), |l.get ⟨j, hj⟩| ≤ |l.get ⟨k, hk⟩|)
    (hfirst : ∀ (k : ℕ) (hk : k < j), |l.get ⟨j, hj⟩| < |l.get ⟨k, Nat.lt_trans hk hj⟩|)
    (hinit : |l.get ⟨j, hj⟩| < |init|) :
    l.foldl minAbsStep init = l.get ⟨j, hj⟩ := by
  induction l generalizing init j with
  | nil => exact absurd hj (Nat.not_lt_zero j)
  | cons a t ih =>
    cases j with
    | zero =>
      have hstep : minAbsStep init a = a := by
        unfold minAbsStep
        rw [if_pos]
        exact hinit
      rw [List.foldl_cons, hstep]
      show t.foldl minAbsStep a = (a :: t).get ⟨0, hj⟩
      rw [show (a :: t).get ⟨0, hj⟩ = a from rfl]
      apply foldl_minAbsStep_no_improve
      intro x hx
      obtain ⟨⟨k, hk⟩, hxk⟩ := List.mem_iff_get.mp hx
      have := hmin (k + 1) (Nat.succ_lt_succ hk)
      rw [List.get_cons_succ] at this
      rw [← hxk]
      exact this
    | succ j' =>
      have hj' : j' < t.length := Nat.lt_of_succ_lt_succ hj
      have hget : (a :: t).get ⟨j' + 1, hj⟩ = t.get ⟨j', hj'⟩ := List.get_cons_succ
      have hlta : |(a :: t).get ⟨j' + 1, hj⟩| < |a| := by
        have := hfirst 0 (Nat.succ_pos j')
        simpa using this
      have hstepbound : |(a :: t).get ⟨j' + 1, hj⟩| < |minAbsStep init a| := by
        unfold minAbsStep
        by_cases hcase : |a| < |init|
        · rw [if_pos hcase]; exact hlta
        · rw [if_neg hcase]; exact hinit
      rw [List.foldl_cons, hget] at *
      refine ih j' (minAbsStep init a) hj' ?_ ?_ hstepbound
      · intro k hk
        have := hmin (k + 1) (Nat.succ_lt_succ hk)
        rw [List.get_cons_succ, List.get_cons_succ] at this
        exact this
      · intro k hk
        have := hfirst (k + 1) (Nat.succ_lt_succ hk)
        rw [List.get_cons_succ, List.get_cons_succ] at this
        exact this

/-- The list of signed surface-curvature values stored on the emitted
physics samples, in emission order. -/
def curvList (params : CycloParams) : List ℝ :=
  (calculatePhysicsMetrics params).points.map (fun q => q.curvatureRadius.getD 0)

lemma minCurvature_eq_foldl (params : CycloParams) :
    (calculatePhysicsMetrics params).minCurvatureRadius =
      (curvList params).foldl minAbsStep numberMaxValue := by
  unfold curvList calculatePhysicsMetrics
  apply foldl_curv_bridge
  intro q hq
  obtain ⟨i, _, hi⟩ := List.mem_filterMap.mp hq
  rw [(physicsSample_some_proj params i q hi).2]
  rfl

/-- **C2 (amended).**  `minCurvatureRadius` equals the surface-curvature value
of the earliest emitted sample of smallest absolute value, *provided* that
absolute value is below `Number.MAX_VALUE` (the accumulator's initial value);
otherwise the initial `Number.MAX_VALUE` is returned unchanged. -/
theorem minCurvature_is_first_smallest_abs (params : CycloParams) (j : ℕ)
    (hj : j < (curvList params).length)
    (hmin : ∀ (k : ℕ) (hk : k < (curvList params).length),
      |(curvList params).get ⟨j, hj⟩| ≤ |(curvList params).get ⟨k, hk⟩|)
    (hfirst : ∀ (k : ℕ) (hk : k < j),
      |(curvList params).get ⟨j, hj⟩| <
        |(curvList params).get ⟨k, Nat.lt_trans hk hj⟩|)
    (habs : |(curvList params).get ⟨j, hj⟩| < numberMaxValue) :
    (calculatePhysicsMetrics params).minCurvatureRadius =
      (curvList params).get ⟨j, hj⟩ := by
  rw [minCurvature_eq_foldl]
  refine foldl_minAbsStep_first_min (curvList params) j numberMaxValue hj hmin hfirst ?_
  have hpos : (0 : ℝ) < numberMaxValue := by unfold numberMaxValue; positivity
  rw [abs_of_pos hpos]
  exact habs

/-- Parameter family for the C2 evaluations: `N = 4`, `resolution = 3`, so the
angle `phi = 3t` is a full multiple of `2π` at every sample and all four
emitted samples carry one and the same curvature value. -/
def c2fam (R E r : ℝ) : CycloParams := ⟨4, R, r, E, 10, 3, 0, 0, 6, 5, 25, .housingFixed⟩

/-- The common surface-curvature value of the four samples of `c2fam`. -/
def c2curvVal (R E r : ℝ) : ℝ :=
  (R * R + E * E * 16 - 8 * R * E) ^ (1.5 : ℝ) /
    (R * R + E * E * 64 - 20 * R * E) - r

lemma c2fam_tAt (R E r : ℝ) (i : ℕ) :
    tAt (c2fam R E r) i = ((i : ℝ) / 3) * (2 * π) := by
  unfold tAt c2fam
  norm_num

lemma c2fam_sinN (R E r : ℝ) (i : ℕ) :
    Real.sin (((c2fam R E r).pinCount : ℝ) * tAt (c2fam R E r) i) =
      Real.sin (tAt (c2fam R E r) i) := by
  have h : ((c2fam R E r).pinCount : ℝ) * tAt (c2fam R E r) i =
      tAt (c2fam R E r) i + (i : ℤ) * (2 * π) := by
    rw [c2fam_tAt]
    show ((4 : ℕ) : ℝ) * _ = _
    push_cast
    ring
  rw [h, Real.sin_add_int_mul_two_pi]

lemma c2fam_cosN (R E r : ℝ) (i : ℕ) :
    Real.cos (((c2fam R E r).pinCount : ℝ) * tAt (c2fam R E r) i) =
      Real.cos (tAt (c2fam R E r) i) := by
  have h : ((c2fam R E r).pinCount : ℝ) * tAt (c2fam R E r) i =
      tAt (c2fam R E r) i + (i : ℤ) * (2 * π) := by
    rw [c2fam_tAt]
    show ((4 : ℕ) : ℝ) * _ = _
    push_cast
    ring
  rw [h, Real.cos_add_int_mul_two_pi]

lemma c2fam_cosPhi (R E r : ℝ) (i : ℕ) :
    Real.cos ((((c2fam R E r).pinCount : ℝ) - 1) * tAt (c2fam R E r) i) = 1 := by
  have h : (((c2fam R E r).pinCount : ℝ) - 1) * tAt (c2fam R E r) i =
      (i : ℤ) * (2 * π) := by
    rw [c2fam_tAt]
    show (((4 : ℕ) : ℝ) - 1) * _ = _
    push_cast
    ring
  rw [h, Real.cos_int_mul_two_pi]

lemma c2fam_tangentLen (R E r : ℝ) (hRE : 0 ≤ R - 4 * E) (i : ℕ) :
    tangentLen (c2fam R E r) i = R - 4 * E := by
  have hsq : dxdtAt (c2fam R E r) i * dxdtAt (c2fam R E r) i +
      dydtAt (c2fam R E r) i * dydtAt (c2fam R E r) i = (R - 4 * E) ^ 2 := by
    unfold dxdtAt dydtAt
    rw [c2fam_sinN, c2fam_cosN]
    have hpy := Real.sin_sq_add_cos_sq (tAt (c2fam R E r) i)
    show (-R * _ + E * ((4 : ℕ) : ℝ) * _) * (-R * _ + E * ((4 : ℕ) : ℝ) * _) +
        (R * _ - E * ((4 : ℕ) : ℝ) * _) * (R * _ - E * ((4 : ℕ) : ℝ) * _) = _
    push_cast
    linear_combination (R - 4 * E) ^ 2 * hpy
  unfold tangentLen
  rw [hsq]
  exact Real.sqrt_sq hRE

lemma c2fam_curvAt (R E r : ℝ) (i : ℕ) :
    surfaceCurvatureAt (c2fam R E r) i = c2curvVal R E r := by
  unfold surfaceCurvatureAt c2curvVal
  dsimp only
  rw [c2fam_cosPhi]
  have h4 : (((c2fam R E r).pinCount : ℝ)) = 4 := by
    show ((4 : ℕ) : ℝ) = 4
    norm_num
  rw [h4]
  rw [show (c2fam R E r).pinCircleRadius = R from rfl,
    show (c2fam R E r).eccentricity = E from rfl,
    show (c2fam R E r).pinRadius = r from rfl]
  congr 2
  · ring
  · ring

lemma c2fam_curvList (R E r : ℝ) (hlen : tangentEps ≤ R - 4 * E) :
    curvList (c2fam R E r) = List.replicate 4 (c2curvVal R E r) := by
  have hRE : 0 ≤ R - 4 * E := le_trans (by norm_num [tangentEps]) hlen
  unfold curvList calculatePhysicsMetrics
  rw [List.map_filterMap]
  have hpt : ∀ i ∈ List.range ((c2fam R E r).resolution + 1),
      (physicsSample (c2fam R E r) i).map (fun q => q.curvatureRadius.getD 0) =
        (fun _ : ℕ => some (c2curvVal R E r)) i := by
    intro i _
    have hemit : tangentEps ≤ tangentLen (c2fam R E r) i := by
      rw [c2fam_tangentLen R E r hRE i]
      exact hlen
    have hproj := physicsSample_proj (c2fam R E r) i hemit
    obtain ⟨q, hq⟩ : ∃ q, physicsSample (c2fam R E r) i = some q := by
      cases hcase : physicsSample (c2fam R E r) i with
      | none => rw [hcase] at hproj; exact Option.noConfusion hproj
      | some q => exact ⟨q, rfl⟩
    rw [hq]
    have hcurv := (physicsSample_some_proj (c2fam R E r) i q hq).2
    simp only [Option.map_some', hcurv, Option.getD_some, c2fam_curvAt]
  rw [List.filterMap_congr hpt]
  rw [show (fun _ : ℕ => some (c2curvVal R E r)) =
    (some ∘ fun _ : ℕ => c2curvVal R E r) from rfl]
  rw [List.filterMap_eq_map]
  rw [List.map_const']
  rfl

/-- Witness for C2 (amended): for `N = 4`, `R = 5`, `E = 1`, `r = 1`,
`resolution = 3`, all four samples carry curvature `-12/11`, and the returned
`minCurvatureRadius` is that first smallest-magnitude value. -/
theorem minCurvature_is_first_smallest_abs_witness :
    (calculatePhysicsMetrics (c2fam 5 1 1)).minCurvatureRadius = -(12 / 11 : ℝ) := by
  have hcl : curvList (c2fam 5 1 1) = List.replicate 4 (-(12 / 11 : ℝ)) := by
    rw [c2fam_curvList 5 1 1 (by norm_num [tangentEps])]
    have hv : c2curvVal 5 1 1 = -(12 / 11 : ℝ) := by
      unfold c2curvVal
      norm_num
    rw [hv]
  have hj : 0 < (curvList (c2fam 5 1 1)).length := by
    rw [hcl]
    norm_num
  have hget : ∀ (k : ℕ) (hk : k < (curvList (c2fam 5 1 1)).length),
      (curvList (c2fam 5 1 1)).get ⟨k, hk⟩ = -(12 / 11 : ℝ) := by
    intro k hk
    rw [List.get_of_eq hcl ⟨k, hk⟩, List.get_replicate]
  have hmain := minCurvature_is_first_smallest_abs (c2fam 5 1 1) 0 hj
    (fun k hk => by rw [hget 0 hj, hget k hk])
    (fun k hk => absurd hk (Nat.not_lt_zero k))
    (by
      rw [hget 0 hj]
      unfold numberMaxValue
      rw [abs_of_nonpos (by norm_num)]
      norm_num)
  rw [hmain, hget 0 hj]

/-- The pin-circle radius of the C2 counterexample. -/
def c2R : ℝ := 10 ^ 400

lemma c2cex_curv_large : numberMaxValue < c2curvVal c2R 1 1 := by
  have hbase : (c2R * c2R + 1 * 1 * 16 - 8 * c2R * 1 : ℝ) = (c2R - 4) ^ 2 := by ring
  have h0 : (0 : ℝ) ≤ c2R - 4 := by norm_num [c2R]
  have hrpow : ((c2R - 4) ^ 2 : ℝ) ^ (1.5 : ℝ) = (c2R - 4) ^ 3 := by
    rw [← Real.rpow_natCast (c2R - 4) 2, ← Real.rpow_mul h0]
    norm_num
    rw [show (3 : ℝ) = ((3 : ℕ) : ℝ) by norm_num, Real.rpow_natCast]
  have hden : (c2R * c2R + 1 * 1 * 64 - 20 * c2R * 1 : ℝ) =
      c2R * c2R - 20 * c2R + 64 := by ring
  have hdenpos : (0 : ℝ) < c2R * c2R - 20 * c2R + 64 := by norm_num [c2R]
  have hdenle : c2R * c2R - 20 * c2R + 64 ≤ (c2R - 4) ^ 2 := by
    have : (c2R - 4) ^ 2 - (c2R * c2R - 20 * c2R + 64) = 12 * c2R - 48 := by ring
    nlinarith [show (0:ℝ) < c2R by norm_num [c2R]]
  have hc4 : (0 : ℝ) < c2R - 4 := by norm_num [c2R]
  have hsqpos : (0 : ℝ) < (c2R - 4) ^ 2 := pow_pos hc4 2
  have hquot : c2R - 4 ≤ (c2R - 4) ^ 3 / (c2R * c2R - 20 * c2R + 64) := by
    have hstep : (c2R - 4) ^ 3 / (c2R - 4) ^ 2 ≤
        (c2R - 4) ^ 3 / (c2R * c2R - 20 * c2R + 64) :=
      div_le_div_of_nonneg_left (by positivity) hdenpos hdenle
    have heq : (c2R - 4) ^ 3 / (c2R - 4) ^ 2 = c2R - 4 := by
      rw [div_eq_iff (ne_of_gt hsqpos)]
      ring
    calc c2R - 4 = (c2R - 4) ^ 3 / (c2R - 4) ^ 2 := heq.symm
      _ ≤ (c2R - 4) ^ 3 / (c2R * c2R - 20 * c2R + 64) := hstep
  unfold c2curvVal
  rw [hbase, hrpow, hden]
  have hfin : numberMaxValue < c2R - 4 - 1 := by
    norm_num [numberMaxValue, c2R]
  linarith

/-- **C2 counterexample.**  At `N = 4`, `R = 10^400`, `E = 1`, `r = 1`,
`resolution = 3`, every emitted sample carries one and the same curvature
value, whose magnitude exceeds `Number.MAX_VALUE`; the strict comparison
against the `Number.MAX_VALUE`-initialised accumulator therefore never fires
and the function returns `Number.MAX_VALUE`, which is *not* the
surface-curvature value of any emitted sample — refuting the claim as
stated. -/
theorem minCurvature_counterexample :
    (calculatePhysicsMetrics (c2fam c2R 1 1)).minCurvatureRadius = numberMaxValue ∧
      curvList (c2fam c2R 1 1) = List.replicate 4 (c2curvVal c2R 1 1) ∧
      numberMaxValue < c2curvVal c2R 1 1 := by
  have hlen : tangentEps ≤ c2R - 4 * 1 := by norm_num [tangentEps, c2R]
  have hcl := c2fam_curvList c2R 1 1 hlen
  refine ⟨?_, hcl, c2cex_curv_large⟩
  rw [minCurvature_eq_foldl, hcl]
  apply foldl_minAbsStep_no_improve
  intro x hx
  rw [List.eq_of_mem_replicate hx]
  have hpos : (0 : ℝ) < numberMaxValue := by unfold numberMaxValue; positivity
  rw [abs_of_pos hpos, abs_of_pos (lt_trans hpos c2cex_curv_large)]
  exact le_of_lt c2cex_curv_large

lemma atan2_of_pos_x (y x : ℝ) (hx : 0 < x) : atan2 y x = Real.arctan (y / x) := by
  unfold atan2
  rw [if_pos hx]

lemma atan2_of_zero_x_pos_y (y : ℝ) (hy : 0 < y) : atan2 y 0 = π / 2 := by
  unfold atan2
  rw [if_neg (lt_irrefl 0), if_pos rfl, if_pos hy]

lemma atan2_zero_of_nonneg (x : ℝ) (hx : 0 ≤ x) : atan2 0 x = 0 := by
  unfold atan2
  rcases lt_or_eq_of_le hx with h | h
  · rw [if_pos h, zero_div, Real.arctan_zero]
  · subst h
    norm_num

/-- Per-sample monotonicity of the pressure-angle formula in `K`, valid while
`K ≤ 1` (below the pole of the denominator). -/
lemma atan2_abs_mono (K1 K2 s c : ℝ) (h0 : 0 ≤ K1) (h12 : K1 ≤ K2) (hK2 : K2 ≤ 1)
    (hsc : s ^ 2 + c ^ 2 = 1) :
    atan2 |K1 * s| |1 - K1 * c| ≤ atan2 |K2 * s| |1 - K2 * c| := by
  have h02 : 0 ≤ K2 := le_trans h0 h12
  have hc1 : |c| ≤ 1 := by nlinarith [sq_abs c, sq_nonneg s, abs_nonneg c]
  have hcle : c ≤ 1 := le_trans (le_abs_self c) hc1
  have hcge : -1 ≤ c := by
    have := neg_abs_le c
    linarith [hc1]
  have hden1 : 0 ≤ 1 - K1 * c := by nlinarith
  have hden2 : 0 ≤ 1 - K2 * c := by nlinarith
  rw [abs_of_nonneg hden1, abs_of_nonneg hden2, abs_mul, abs_mul,
    abs_of_nonneg h0, abs_of_nonneg h02]
  by_cases h2 : 1 - K2 * c = 0
  · have hKc : K2 * c = 1 := by linarith
    have hK21 : K2 = 1 := by nlinarith
    have hc : c = 1 := by nlinarith
    have hs : s = 0 := by nlinarith
    rw [hs, abs_zero, mul_zero, mul_zero]
    rw [atan2_zero_of_nonneg _ hden2, atan2_zero_of_nonneg _ hden1]
  · have hden2' : 0 < 1 - K2 * c := lt_of_le_of_ne hden2 (Ne.symm h2)
    have hden1' : 0 < 1 - K1 * c := by
      rcases le_or_lt 0 c with hc0 | hc0
      · nlinarith
      · nlinarith
    rw [atan2_of_pos_x _ _ hden1', atan2_of_pos_x _ _ hden2']
    apply Real.arctan_strictMono.monotone
    rw [div_le_div_iff hden1' hden2']
    nlinarith [abs_nonneg s]

lemma le_foldl_runMaxStep (l : List ℝ) (init : ℝ) : init ≤ l.foldl runMaxStep init := by
  induction l generalizing init with
  | nil => exact le_refl init
  | cons a t ih =>
    rw [List.foldl_cons]
    refine le_trans ?_ (ih (runMaxStep init a))
    unfold runMaxStep
    split
    · linarith
    · exact le_refl init

lemma mem_le_foldl_runMaxStep (l : List ℝ) :
    ∀ (init x : ℝ), x ∈ l → x ≤ l.foldl runMaxStep init := by
  induction l with
  | nil => intro init x hx; exact absurd hx (List.not_mem_nil x)
  | cons a t ih =>
    intro init x hx
    rw [List.foldl_cons]
    rcases List.mem_cons.mp hx with h | h
    · subst h
      refine le_trans ?_ (le_foldl_runMaxStep t (runMaxStep init x))
      unfold runMaxStep
      split
      · exact le_refl x
      · rename_i hcond
        exact le_of_not_lt hcond
    · exact ih (runMaxStep init a) x h

lemma foldl_runMaxStep_le (l : List ℝ) :
    ∀ (init c : ℝ), init ≤ c → (∀ x ∈ l, x ≤ c) → l.foldl runMaxStep init ≤ c := by
  induction l with
  | nil => intro init c hinit _; exact hinit
  | cons a t ih =>
    intro init c hinit h
    rw [List.foldl_cons]
    refine ih _ c ?_ (fun x hx => h x (List.mem_cons_of_mem a hx))
    unfold runMaxStep
    split
    · exact h a (List.mem_cons_self a t)
    · exact hinit

/-- The list of pressure-angle values (degrees) stored on the emitted physics
samples, in emission order. -/
def pressList (params : CycloParams) : List ℝ :=
  (calculatePhysicsMetrics params).points.map (fun q => q.pressureAngle.getD 0)

lemma maxPressure_eq_foldl (params : CycloParams) :
    (calculatePhysicsMetrics params).maxPressureAngle =
      (pressList params).foldl runMaxStep 0 := by
  unfold pressList calculatePhysicsMetrics
  apply foldl_press_bridge
  intro q hq
  obtain ⟨i, _, hi⟩ := List.mem_filterMap.mp hq
  rw [(physicsSample_some_proj params i q hi).1]
  rfl

lemma pressList_eq_filterMap (params : CycloParams) :
    pressList params = (List.range (params.resolution + 1)).filterMap
      (fun i => (physicsSample params i).map (fun q => q.pressureAngle.getD 0)) := by
  unfold pressList calculatePhysicsMetrics
  rw [List.map_filterMap]

lemma physicsSample_pressure_getD (params : CycloParams) (i : ℕ)
    (h : tangentEps ≤ tangentLen params i) :
    (physicsSample params i).map (fun q => q.pressureAngle.getD 0) =
      some (pressureDegAt params i) := by
  obtain ⟨q, hq⟩ : ∃ q, physicsSample params i = some q := by
    cases hcase : physicsSample params i with
    | none =>
      rw [physicsSample_eq_none_iff] at hcase
      exact absurd hcase (not_lt.mpr h)
    | some q => exact ⟨q, rfl⟩
  rw [hq, Option.map_some', (physicsSample_some_proj params i q hq).1]
  rfl

lemma mem_pressList (params : CycloParams) (x : ℝ) (hx : x ∈ pressList params) :
    ∃ i, i < params.resolution + 1 ∧ x = pressureDegAt params i := by
  rw [pressList_eq_filterMap] at hx
  obtain ⟨i, hirange, hxi⟩ := List.mem_filterMap.mp hx
  obtain ⟨q, hq⟩ : ∃ q, physicsSample params i = some q := by
    cases hcase : physicsSample params i with
    | none => rw [hcase] at hxi; exact Option.noConfusion hxi
    | some q => exact ⟨q, rfl⟩
  refine ⟨i, List.mem_range.mp hirange, ?_⟩
  rw [hq, Option.map_some', Option.some.injEq] at hxi
  rw [← hxi, (physicsSample_some_proj params i q hq).1]
  rfl

lemma pressureDegAt_mono (p : CycloParams) (E1 E2 : ℝ) (h1 : 0 ≤ E1) (h12 : E1 ≤ E2)
    (hK : E2 * (p.pinCount : ℝ) ≤ p.pinCircleRadius) (hR : 0 < p.pinCircleRadius)
    (i : ℕ) :
    pressureDegAt { p with eccentricity := E1 } i ≤
      pressureDegAt { p with eccentricity := E2 } i := by
  unfold pressureDegAt
  dsimp only
  have ht1 : tAt { p with eccentricity := E1 } i = tAt p i := rfl
  have ht2 : tAt { p with eccentricity := E2 } i = tAt p i := rfl
  rw [ht1, ht2]
  have hNn : (0 : ℝ) ≤ (p.pinCount : ℝ) := Nat.cast_nonneg _
  refine mul_le_mul_of_nonneg_right ?_ (by positivity)
  refine atan2_abs_mono (E1 * (p.pinCount : ℝ) / p.pinCircleRadius)
    (E2 * (p.pinCount : ℝ) / p.pinCircleRadius)
    (Real.sin ((p.pinCount : ℝ) * tAt p i)) (Real.cos ((p.pinCount : ℝ) * tAt p i))
    ?_ ?_ ?_ (Real.sin_sq_add_cos_sq _)
  · exact div_nonneg (mul_nonneg h1 hNn) (le_of_lt hR)
  · exact (div_le_div_right hR).mpr (mul_le_mul_of_nonneg_right h12 hNn)
  · exact (div_le_one hR).mpr hK

/-- **C5 (amended).**  For fixed `N`, `R`, `pinRadius`, `resolution`, the
returned `maxPressureAngle` is monotone in the eccentricity on
`0 ≤ E1 ≤ E2`, *provided* `E2·N ≤ R` (the pressure-angle denominator has no
pole, i.e. `K ≤ 1`) and no sample of the grid is dropped at eccentricity
`E2`.  Without those provisos monotonicity fails (see the counterexample). -/
theorem maxPressureAngle_mono_in_eccentricity (p : CycloParams) (E1 E2 : ℝ)
    (h1 : 0 ≤ E1) (h12 : E1 ≤ E2)
    (hK : E2 * (p.pinCount : ℝ) ≤ p.pinCircleRadius) (hR : 0 < p.pinCircleRadius)
    (hemit : ∀ i, i < p.resolution + 1 →
      tangentEps ≤ tangentLen { p with eccentricity := E2 } i) :
    (calculatePhysicsMetrics { p with eccentricity := E1 }).maxPressureAngle ≤
      (calculatePhysicsMetrics { p with eccentricity := E2 }).maxPressureAngle := by
  rw [maxPressure_eq_foldl, maxPressure_eq_foldl]
  apply foldl_runMaxStep_le
  · exact le_foldl_runMaxStep _ 0
  · intro x hx
    obtain ⟨i, hilt, hx_eq⟩ := mem_pressList _ x hx
    have hilt' : i < p.resolution + 1 := hilt
    have hi2 : tangentEps ≤ tangentLen { p with eccentricity := E2 } i :=
      hemit i hilt'
    have hmem2 : pressureDegAt { p with eccentricity := E2 } i ∈
        pressList { p with eccentricity := E2 } := by
      rw [pressList_eq_filterMap]
      refine List.mem_filterMap.mpr ⟨i, List.mem_range.mpr hilt', ?_⟩
      exact physicsSample_pressure_getD _ i hi2
    calc x = pressureDegAt { p with eccentricity := E1 } i := hx_eq
      _ ≤ pressureDegAt { p with eccentricity := E2 } i :=
        pressureDegAt_mono p E1 E2 h1 h12 hK hR i
      _ ≤ (pressList { p with eccentricity := E2 }).foldl runMaxStep 0 :=
        mem_le_foldl_runMaxStep _ 0 _ hmem2

/-- Parameter family for the C5 witness: `N = 4`, `R = 50`, `resolution = 1`,
eccentricity `E`. -/
def c5wfam (E : ℝ) : CycloParams := ⟨4, 50, 5, E, 10, 1, 0, 0, 6, 5, 25, .housingFixed⟩

lemma c5wfam_tAt (E : ℝ) (i : ℕ) : tAt (c5wfam E) i = ((i : ℤ) : ℝ) * (2 * π) := by
  unfold tAt c5wfam
  push_cast
  norm_num

lemma c5wfam_sin (E : ℝ) (i : ℕ) : Real.sin (tAt (c5wfam E) i) = 0 := by
  rw [c5wfam_tAt, show ((i : ℤ) : ℝ) * (2 * π) = 0 + ((i : ℤ) : ℝ) * (2 * π) from by ring,
    Real.sin_add_int_mul_two_pi, Real.sin_zero]

lemma c5wfam_cos (E : ℝ) (i : ℕ) : Real.cos (tAt (c5wfam E) i) = 1 := by
  rw [c5wfam_tAt, Real.cos_int_mul_two_pi]

lemma c5wfam_sinN (E : ℝ) (i : ℕ) :
    Real.sin (((c5wfam E).pinCount : ℝ) * tAt (c5wfam E) i) = 0 := by
  have h : ((c5wfam E).pinCount : ℝ) * tAt (c5wfam E) i =
      0 + ((4 * i : ℤ) : ℝ) * (2 * π) := by
    rw [c5wfam_tAt]
    show ((4 : ℕ) : ℝ) * _ = _
    push_cast
    ring
  rw [h, Real.sin_add_int_mul_two_pi, Real.sin_zero]

lemma c5wfam_cosN (E : ℝ) (i : ℕ) :
    Real.cos (((c5wfam E).pinCount : ℝ) * tAt (c5wfam E) i) = 1 := by
  have h : ((c5wfam E).pinCount : ℝ) * tAt (c5wfam E) i = ((4 * i : ℤ) : ℝ) * (2 * π) := by
    rw [c5wfam_tAt]
    show ((4 : ℕ) : ℝ) * _ = _
    push_cast
    ring
  rw [h, Real.cos_int_mul_two_pi]

lemma c5wfam_len_one (i : ℕ) : tangentLen (c5wfam 1) i = 46 := by
  have hdx : dxdtAt (c5wfam 1) i = 0 := by
    unfold dxdtAt
    rw [c5wfam_sin, c5wfam_sinN]
    ring
  have hdy : dydtAt (c5wfam 1) i = 46 := by
    unfold dydtAt
    rw [c5wfam_cos, c5wfam_cosN]
    show (50 : ℝ) * 1 - 1 * ((4 : ℕ) : ℝ) * 1 = 46
    push_cast
    norm_num
  unfold tangentLen
  rw [hdx, hdy, show (0 : ℝ) * 0 + 46 * 46 = 46 ^ 2 from by norm_num,
    Real.sqrt_sq (by norm_num : (0 : ℝ) ≤ 46)]

/-- Witness for C5 (amended) at `N = 4`, `R = 50`, `resolution = 1`,
eccentricities `0 ≤ 1` with `1·N ≤ R` and no dropped samples. -/
theorem maxPressureAngle_mono_witness :
    (calculatePhysicsMetrics (c5wfam 0)).maxPressureAngle ≤
      (calculatePhysicsMetrics (c5wfam 1)).maxPressureAngle := by
  have h := maxPressureAngle_mono_in_eccentricity (c5wfam 0) 0 1
    le_rfl (by norm_num)
    (by show (1 : ℝ) * ((4 : ℕ) : ℝ) ≤ 50; push_cast; norm_num)
    (by show (0 : ℝ) < 50; norm_num)
    (by
      intro i _
      show tangentEps ≤ tangentLen (c5wfam 1) i
      rw [c5wfam_len_one]
      norm_num [tangentEps])
  exact h

/-- Parameter family for the C5 counterexample: `N = 7`, `R = 7`,
`resolution = 6`, eccentricity `E`, so `K = E` and the grid hits the angles
`i·π/3`. -/
def c5p (E : ℝ) : CycloParams := ⟨7, 7, 1, E, 10, 6, 0, 0, 6, 5, 25, .housingFixed⟩

/-- Closed form of the pressure angle of sample `i` of `c5p E`. -/
def pressVal (E : ℝ) (i : ℕ) : ℝ :=
  atan2 |E * Real.sin ((i : ℝ) * π / 3)| |1 - E * Real.cos ((i : ℝ) * π / 3)| * (180 / π)

lemma c5p_tAt (E : ℝ) (i : ℕ) : tAt (c5p E) i = (i : ℝ) * π / 3 := by
  unfold tAt c5p
  push_cast
  ring

lemma c5p_sinN (E : ℝ) (i : ℕ) :
    Real.sin (((c5p E).pinCount : ℝ) * tAt (c5p E) i) = Real.sin (tAt (c5p E) i) := by
  have h : ((c5p E).pinCount : ℝ) * tAt (c5p E) i =
      tAt (c5p E) i + ((i : ℤ) : ℝ) * (2 * π) := by
    rw [c5p_tAt]
    show ((7 : ℕ) : ℝ) * _ = _
    push_cast
    ring
  rw [h, Real.sin_add_int_mul_two_pi]

lemma c5p_cosN (E : ℝ) (i : ℕ) :
    Real.cos (((c5p E).pinCount : ℝ) * tAt (c5p E) i) = Real.cos (tAt (c5p E) i) := by
  have h : ((c5p E).pinCount : ℝ) * tAt (c5p E) i =
      tAt (c5p E) i + ((i : ℤ) : ℝ) * (2 * π) := by
    rw [c5p_tAt]
    show ((7 : ℕ) : ℝ) * _ = _
    push_cast
    ring
  rw [h, Real.cos_add_int_mul_two_pi]

lemma c5p_len (E : ℝ) (hE : 1 ≤ E) (i : ℕ) : tangentLen (c5p E) i = 7 * (E - 1) := by
  have hsq : dxdtAt (c5p E) i * dxdtAt (c5p E) i +
      dydtAt (c5p E) i * dydtAt (c5p E) i = (7 * (E - 1)) ^ 2 := by
    unfold dxdtAt dydtAt
    rw [c5p_sinN, c5p_cosN]
    have hpy := Real.sin_sq_add_cos_sq (tAt (c5p E) i)
    show (-(7 : ℝ) * _ + E * ((7 : ℕ) : ℝ) * _) * (-(7 : ℝ) * _ + E * ((7 : ℕ) : ℝ) * _) +
        ((7 : ℝ) * _ - E * ((7 : ℕ) : ℝ) * _) * ((7 : ℝ) * _ - E * ((7 : ℕ) : ℝ) * _) = _
    push_cast
    linear_combination (7 * (E - 1)) ^ 2 * hpy
  unfold tangentLen
  rw [hsq]
  exact Real.sqrt_sq (by linarith)

lemma c5p_pressAt (E : ℝ) (i : ℕ) : pressureDegAt (c5p E) i = pressVal E i := by
  unfold pressureDegAt pressVal
  rw [c5p_sinN, c5p_cosN, c5p_tAt]
  have hK : (c5p E).eccentricity * ((c5p E).pinCount : ℝ) / (c5p E).pinCircleRadius
      = E := by
    show E * ((7 : ℕ) : ℝ) / (7 : ℝ) = E
    push_cast
    ring
  rw [hK]

lemma c5p_pressList (E : ℝ) (hE : 1 + tangentEps / 7 ≤ E) :
    pressList (c5p E) = (List.range 7).map (pressVal E) := by
  rw [pressList_eq_filterMap]
  have hres : (c5p E).resolution + 1 = 7 := rfl
  rw [hres]
  have hE1 : (1 : ℝ) ≤ E := by
    have : (0 : ℝ) ≤ tangentEps / 7 := by norm_num [tangentEps]
    linarith
  have hpt : ∀ i ∈ List.range 7,
      (physicsSample (c5p E) i).map (fun q => q.pressureAngle.getD 0) =
        (some ∘ pressVal E) i := by
    intro i _
    have hlen : tangentEps ≤ tangentLen (c5p E) i := by
      rw [c5p_len E hE1 i]
      linarith
    rw [physicsSample_pressure_getD _ i hlen, c5p_pressAt]
    rfl
  rw [List.filterMap_congr hpt, List.filterMap_eq_map]

lemma runMaxStep_of_le (m a : ℝ) (h : a ≤ m) : runMaxStep m a = m := by
  unfold runMaxStep
  rw [if_neg (not_lt.mpr h)]

lemma runMaxStep_of_lt (m a : ℝ) (h : m < a) : runMaxStep m a = a := by
  unfold runMaxStep
  rw [if_pos h]

lemma pressVal_of_sin_zero (E : ℝ) (i : ℕ) (h : Real.sin ((i : ℝ) * π / 3) = 0) :
    pressVal E i = 0 := by
  unfold pressVal
  rw [h, mul_zero, abs_zero, atan2_zero_of_nonneg _ (abs_nonneg _), zero_mul]

lemma pressVal_zero_idx (E : ℝ) : pressVal E 0 = 0 :=
  pressVal_of_sin_zero E 0 (by norm_num)

lemma pressVal_three_idx (E : ℝ) : pressVal E 3 = 0 :=
  pressVal_of_sin_zero E 3
    (by rw [show ((3 : ℕ) : ℝ) * π / 3 = π from by push_cast; ring, Real.sin_pi])

lemma pressVal_six_idx (E : ℝ) : pressVal E 6 = 0 :=
  pressVal_of_sin_zero E 6
    (by rw [show ((6 : ℕ) : ℝ) * π / 3 = 2 * π from by push_cast; ring, Real.sin_two_pi])

lemma sin_one_pi_third : Real.sin (((1 : ℕ) : ℝ) * π / 3) = Real.sqrt 3 / 2 := by
  rw [show ((1 : ℕ) : ℝ) * π / 3 = π / 3 from by push_cast; ring, Real.sin_pi_div_three]

lemma cos_one_pi_third : Real.cos (((1 : ℕ) : ℝ) * π / 3) = 1 / 2 := by
  rw [show ((1 : ℕ) : ℝ) * π / 3 = π / 3 from by push_cast; ring, Real.cos_pi_div_three]

lemma sin_two_pi_third : Real.sin (((2 : ℕ) : ℝ) * π / 3) = Real.sqrt 3 / 2 := by
  rw [show ((2 : ℕ) : ℝ) * π / 3 = π - π / 3 from by push_cast; ring, Real.sin_pi_sub,
    Real.sin_pi_div_three]

lemma cos_two_pi_third : Real.cos (((2 : ℕ) : ℝ) * π / 3) = -(1 / 2) := by
  rw [show ((2 : ℕ) : ℝ) * π / 3 = π - π / 3 from by push_cast; ring, Real.cos_pi_sub,
    Real.cos_pi_div_three]

lemma sin_four_pi_third : Real.sin (((4 : ℕ) : ℝ) * π / 3) = -(Real.sqrt 3 / 2) := by
  rw [show ((4 : ℕ) : ℝ) * π / 3 = 2 * π - (π - π / 3) from by push_cast; ring,
    Real.sin_two_pi_sub, Real.sin_pi_sub, Real.sin_pi_div_three]

lemma cos_four_pi_third : Real.cos (((4 : ℕ) : ℝ) * π / 3) = -(1 / 2) := by
  rw [show ((4 : ℕ) : ℝ) * π / 3 = 2 * π - (π - π / 3) from by push_cast; ring,
    Real.cos_two_pi_sub, Real.cos_pi_sub, Real.cos_pi_div_three]

lemma sin_five_pi_third : Real.sin (((5 : ℕ) : ℝ) * π / 3) = -(Real.sqrt 3 / 2) := by
  rw [show ((5 : ℕ) : ℝ) * π / 3 = 2 * π - π / 3 from by push_cast; ring,
    Real.sin_two_pi_sub, Real.sin_pi_div_three]

lemma cos_five_pi_third : Real.cos (((5 : ℕ) : ℝ) * π / 3) = 1 / 2 := by
  rw [show ((5 : ℕ) : ℝ) * π / 3 = 2 * π - π / 3 from by push_cast; ring,
    Real.cos_two_pi_sub, Real.cos_pi_div_three]

lemma pi_half_deg : π / 2 * (180 / π) = 90 := by
  field_simp
  ring

lemma arctan_deg_lt_90 (x : ℝ) : Real.arctan x * (180 / π) < 90 := by
  have h := Real.arctan_lt_pi_div_two x
  have hd : (0 : ℝ) < 180 / π := by positivity
  calc Real.arctan x * (180 / π) < π / 2 * (180 / π) := mul_lt_mul_of_pos_right h hd
    _ = 90 := pi_half_deg

lemma pressVal_two_one : pressVal 2 1 = 90 := by
  unfold pressVal
  rw [sin_one_pi_third, cos_one_pi_third,
    show (2 : ℝ) * (Real.sqrt 3 / 2) = Real.sqrt 3 from by ring,
    show (1 : ℝ) - 2 * (1 / 2) = 0 from by norm_num,
    abs_of_nonneg (Real.sqrt_nonneg 3), abs_zero,
    atan2_of_zero_x_pos_y _ (Real.sqrt_pos.mpr (by norm_num)), pi_half_deg]

lemma pressVal_two_two : pressVal 2 2 = Real.arctan (Real.sqrt 3 / 2) * (180 / π) := by
  unfold pressVal
  rw [sin_two_pi_third, cos_two_pi_third,
    show (2 : ℝ) * (Real.sqrt 3 / 2) = Real.sqrt 3 from by ring,
    show (1 : ℝ) - 2 * -(1 / 2) = 2 from by norm_num,
    abs_of_nonneg (Real.sqrt_nonneg 3), abs_of_nonneg (by norm_num : (0 : ℝ) ≤ 2),
    atan2_of_pos_x _ _ (by norm_num : (0 : ℝ) < 2)]

lemma pressVal_two_four : pressVal 2 4 = Real.arctan (Real.sqrt 3 / 2) * (180 / π) := by
  unfold pressVal
  rw [sin_four_pi_third, cos_four_pi_third,
    show (2 : ℝ) * -(Real.sqrt 3 / 2) = -Real.sqrt 3 from by ring,
    show (1 : ℝ) - 2 * -(1 / 2) = 2 from by norm_num,
    abs_neg, abs_of_nonneg (Real.sqrt_nonneg 3),
    abs_of_nonneg (by norm_num : (0 : ℝ) ≤ 2),
    atan2_of_pos_x _ _ (by norm_num : (0 : ℝ) < 2)]

lemma pressVal_two_five : pressVal 2 5 = 90 := by
  unfold pressVal
  rw [sin_five_pi_third, cos_five_pi_third,
    show (2 : ℝ) * -(Real.sqrt 3 / 2) = -Real.sqrt 3 from by ring,
    show (1 : ℝ) - 2 * (1 / 2) = 0 from by norm_num,
    abs_neg, abs_of_nonneg (Real.sqrt_nonneg 3), abs_zero,
    atan2_of_zero_x_pos_y _ (Real.sqrt_pos.mpr (by norm_num)), pi_half_deg]

lemma c5p_two_max : (calculatePhysicsMetrics (c5p 2)).maxPressureAngle = 90 := by
  rw [maxPressure_eq_foldl, c5p_pressList 2 (by norm_num [tangentEps]),
    show List.range 7 = [0, 1, 2, 3, 4, 5, 6] from rfl]
  simp only [List.map_cons, List.map_nil]
  rw [pressVal_zero_idx, pressVal_two_one, pressVal_two_two, pressVal_three_idx,
    pressVal_two_four, pressVal_two_five, pressVal_six_idx]
  have hA90 : Real.arctan (Real.sqrt 3 / 2) * (180 / π) < 90 := arctan_deg_lt_90 _
  simp only [List.foldl_cons, List.foldl_nil]
  rw [runMaxStep_of_le 0 0 le_rfl, runMaxStep_of_lt 0 90 (by norm_num),
    runMaxStep_of_le 90 _ (le_of_lt hA90), runMaxStep_of_le 90 0 (by norm_num),
    runMaxStep_of_le 90 _ (le_of_lt hA90), runMaxStep_of_le 90 90 le_rfl,
    runMaxStep_of_le 90 0 (by norm_num)]

lemma pressVal_three_one : pressVal 3 1 = Real.arctan (3 * Real.sqrt 3) * (180 / π) := by
  unfold pressVal
  rw [sin_one_pi_third, cos_one_pi_third,
    show (1 : ℝ) - 3 * (1 / 2) = -(1 / 2) from by norm_num,
    abs_of_nonneg (by positivity : (0 : ℝ) ≤ 3 * (Real.sqrt 3 / 2)),
    abs_neg, abs_of_nonneg (by norm_num : (0 : ℝ) ≤ (1 : ℝ) / 2),
    atan2_of_pos_x _ _ (by norm_num : (0 : ℝ) < (1 : ℝ) / 2),
    show (3 : ℝ) * (Real.sqrt 3 / 2) / (1 / 2) = 3 * Real.sqrt 3 from by ring]

lemma pressVal_three_two : pressVal 3 2 = Real.arctan (3 * Real.sqrt 3 / 5) * (180 / π) := by
  unfold pressVal
  rw [sin_two_pi_third, cos_two_pi_third,
    show (1 : ℝ) - 3 * -(1 / 2) = 5 / 2 from by norm_num,
    abs_of_nonneg (by positivity : (0 : ℝ) ≤ 3 * (Real.sqrt 3 / 2)),
    abs_of_nonneg (by norm_num : (0 : ℝ) ≤ (5 : ℝ) / 2),
    atan2_of_pos_x _ _ (by norm_num : (0 : ℝ) < (5 : ℝ) / 2),
    show (3 : ℝ) * (Real.sqrt 3 / 2) / (5 / 2) = 3 * Real.sqrt 3 / 5 from by ring]

lemma pressVal_three_four : pressVal 3 4 = Real.arctan (3 * Real.sqrt 3 / 5) * (180 / π) := by
  unfold pressVal
  rw [sin_four_pi_third, cos_four_pi_third,
    show (3 : ℝ) * -(Real.sqrt 3 / 2) = -(3 * (Real.sqrt 3 / 2)) from by ring,
    show (1 : ℝ) - 3 * -(1 / 2) = 5 / 2 from by norm_num,
    abs_neg, abs_of_nonneg (by positivity : (0 : ℝ) ≤ 3 * (Real.sqrt 3 / 2)),
    abs_of_nonneg (by norm_num : (0 : ℝ) ≤ (5 : ℝ) / 2),
    atan2_of_pos_x _ _ (by norm_num : (0 : ℝ) < (5 : ℝ) / 2),
    show (3 : ℝ) * (Real.sqrt 3 / 2) / (5 / 2) = 3 * Real.sqrt 3 / 5 from by ring]

lemma pressVal_three_five : pressVal 3 5 = Real.arctan (3 * Real.sqrt 3) * (180 / π) := by
  unfold pressVal
  rw [sin_five_pi_third, cos_five_pi_third,
    show (3 : ℝ) * -(Real.sqrt 3 / 2) = -(3 * (Real.sqrt 3 / 2)) from by ring,
    show (1 : ℝ) - 3 * (1 / 2) = -(1 / 2) from by norm_num,
    abs_neg, abs_of_nonneg (by positivity : (0 : ℝ) ≤ 3 * (Real.sqrt 3 / 2)),
    abs_neg, abs_of_nonneg (by norm_num : (0 : ℝ) ≤ (1 : ℝ) / 2),
    atan2_of_pos_x _ _ (by norm_num : (0 : ℝ) < (1 : ℝ) / 2),
    show (3 : ℝ) * (Real.sqrt 3 / 2) / (1 / 2) = 3 * Real.sqrt 3 from by ring]

lemma c5p_three_max :
    (calculatePhysicsMetrics (c5p 3)).maxPressureAngle =
      Real.arctan (3 * Real.sqrt 3) * (180 / π) := by
  rw [maxPressure_eq_foldl, c5p_pressList 3 (by norm_num [tangentEps]),
    show List.range 7 = [0, 1, 2, 3, 4, 5, 6] from rfl]
  simp only [List.map_cons, List.map_nil]
  rw [pressVal_zero_idx, pressVal_three_one, pressVal_three_two, pressVal_three_idx,
    pressVal_three_four, pressVal_three_five, pressVal_six_idx]
  have hs3 : (0 : ℝ) < Real.sqrt 3 := Real.sqrt_pos.mpr (by norm_num)
  have hBpos : 0 < Real.arctan (3 * Real.sqrt 3) * (180 / π) := by
    have h0 : (0 : ℝ) < Real.arctan (3 * Real.sqrt 3) := by
      have h := Real.arctan_strictMono (show (0 : ℝ) < 3 * Real.sqrt 3 from by positivity)
      rwa [Real.arctan_zero] at h
    positivity
  have hCB : Real.arctan (3 * Real.sqrt 3 / 5) * (180 / π) ≤
      Real.arctan (3 * Real.sqrt 3) * (180 / π) := by
    refine mul_le_mul_of_nonneg_right ?_ (by positivity)
    exact Real.arctan_strictMono.monotone (by nlinarith)
  simp only [List.foldl_cons, List.foldl_nil]
  rw [runMaxStep_of_le 0 0 le_rfl, runMaxStep_of_lt 0 _ hBpos,
    runMaxStep_of_le _ _ hCB, runMaxStep_of_le _ 0 (le_of_lt hBpos),
    runMaxStep_of_le _ _ hCB, runMaxStep_of_le _ _ le_rfl,
    runMaxStep_of_le _ 0 (le_of_lt hBpos)]

/-- **C5 counterexample.**  At `N = 7`, `R = 7`, `resolution = 6`, raising the
eccentricity from `2` to `3` strictly *decreases* `maxPressureAngle` (from
exactly `90°` at the denominator pole down to `arctan(3√3)` in degrees), so
the claimed monotonicity in eccentricity fails. -/
theorem maxPressureAngle_not_monotone :
    (0 : ℝ) ≤ 2 ∧ (2 : ℝ) ≤ 3 ∧
      (calculatePhysicsMetrics (c5p 3)).maxPressureAngle <
        (calculatePhysicsMetrics (c5p 2)).maxPressureAngle := by
  refine ⟨by norm_num, by norm_num, ?_⟩
  rw [c5p_two_max, c5p_three_max]
  exact arctan_deg_lt_90 _

/-- `parseFloat(x.toFixed(d))` as a real value: round `|x|` half-up to `d`
decimal places (ECMAScript picks the larger candidate on ties), and restore
the sign of `x`. -/
def toFixedVal (d : ℕ) (x : ℝ) : ℝ :=
  (if x < 0 then -1 else 1) * ((⌊|x| * 10 ^ d + 1 / 2⌋ : ℤ) : ℝ) / 10 ^ d

/-- The `GeometricFix` record of `geometry.ts`. -/
structure GeometricFix where
  label : String
  description : String
  params : CycloParams

/-- The `GeometricQuality` record of `geometry.ts`. -/
structure GeometricQuality where
  valid : Bool
  warnings : List String
  fixes : List GeometricFix

/-- The de-duplication of the fixes array: keep an entry iff it is the first
with its `(label, params)` key (the source keeps `fix` iff its index equals
`findIndex` of the first entry with equal label and `JSON.stringify`-equal
params, which is exactly keep-first-occurrence semantics). -/
def dedupFixes : List GeometricFix → List GeometricFix
  | [] => []
  | f :: rest =>
    f :: dedupFixes (rest.filter
      (fun g => decide ¬(g.label = f.label ∧ g.params = f.params)))
termination_by l => l.length
decreasing_by
  simp_wf
  exact Nat.lt_succ_of_le (List.length_filter_le _ _)

/-- `getGeometricQuality` from `src/utils/geometry.ts`.  The number-to-string
interpolation used in warning and description texts is abstracted by the
formatter argument `fmt`; the three heuristics, the proposed parameter
records, the fix de-duplication and the `valid` flag follow the source.
(The "Shrink Pins" description wording spells out the source's
mojibake-damaged diameter glyph; no claim concerns the description texts,
and the de-duplication key compares only labels and parameter records, as in
the source.) -/
def getGeometricQuality (fmt : ℝ → String) (params : CycloParams) : GeometricQuality :=
  let maxSafeEccentricity := params.pinCircleRadius / (1.5 * (params.pinCount : ℝ))
  let safeE := toFixedVal 2 (params.pinCircleRadius / (2.0 * (params.pinCount : ℝ)))
  let safeR := toFixedVal 1 (params.eccentricity * 2.0 * (params.pinCount : ℝ))
  let w1 : List String :=
    if maxSafeEccentricity < params.eccentricity then
      ["Eccentricity (" ++ fmt params.eccentricity ++ "mm) is too high for this radius."]
    else []
  let f1 : List GeometricFix :=
    if maxSafeEccentricity < params.eccentricity then
      [{ label := "Reduce Eccentricity",
         description := "Lower E to " ++ fmt safeE ++ "mm",
         params := { params with eccentricity := safeE } },
       { label := "Increase Radius",
         description := "Enlarge R to " ++ fmt safeR ++ "mm",
         params := { params with pinCircleRadius := safeR } }]
    else []
  let pinSpacing := 2 * π * params.pinCircleRadius / (params.pinCount : ℝ)
  let safePinR := toFixedVal 2 (pinSpacing * 0.9 / 2)
  let w2 : List String :=
    if pinSpacing * 0.95 < params.pinRadius * 2 then ["Pins are too large for spacing."]
    else []
  let f2 : List GeometricFix :=
    if pinSpacing * 0.95 < params.pinRadius * 2 then
      [{ label := "Shrink Pins",
         description := "Reduce pin diameter to " ++ fmt (safePinR * 2) ++ "mm",
         params := { params with pinRadius := safePinR } }]
    else []
  let approxInnerRadius :=
    params.pinCircleRadius - (params.pinCount : ℝ) * params.eccentricity - params.pinRadius
  let safeHole := toFixedVal 1 (max 2 (approxInnerRadius - 2.0))
  let w3 : List String :=
    if approxInnerRadius < params.holeRadius + 1.5 then ["Wall thickness is critically low."]
    else []
  let f3 : List GeometricFix :=
    if approxInnerRadius < params.holeRadius + 1.5 then
      (if 0 < safeHole then
        [{ label := "Shrink Center Hole",
           description := "Set Hole R to " ++ fmt safeHole ++ "mm",
           params := { params with holeRadius := safeHole } }]
      else [])
    else []
  let warnings := w1 ++ w2 ++ w3
  { valid := warnings.isEmpty,
    warnings := warnings,
    fixes := dedupFixes (f1 ++ f2 ++ f3) }

lemma dedupFixes_head (f : GeometricFix) (l : List GeometricFix) :
    (dedupFixes (f :: l)).head? = some f := by
  rw [dedupFixes]
  rfl

lemma dedupFixes_subset (l : List GeometricFix) :
    ∀ g ∈ dedupFixes l, g ∈ l := by
  induction l using dedupFixes.induct with
  | case1 =>
    intro g hg
    rw [dedupFixes] at hg
    exact absurd hg (List.not_mem_nil g)
  | case2 f rest ih =>
    intro g hg
    rw [dedupFixes] at hg
    rcases List.mem_cons.mp hg with h | h
    · exact h ▸ List.mem_cons_self f rest
    · exact List.mem_cons_of_mem f (List.mem_of_mem_filter (ih g h))

lemma dedupFixes_key_mem (l : List GeometricFix) :
    ∀ x ∈ l, ∃ y ∈ dedupFixes l, y.label = x.label ∧ y.params = x.params := by
  induction l using dedupFixes.induct with
  | case1 => intro x hx; exact absurd hx (List.not_mem_nil x)
  | case2 f rest ih =>
    intro x hx
    rw [dedupFixes]
    rcases List.mem_cons.mp hx with h | h
    · exact ⟨f, List.mem_cons_self _ _, by rw [h], by rw [h]⟩
    · by_cases hkey : x.label = f.label ∧ x.params = f.params
      · exact ⟨f, List.mem_cons_self _ _, hkey.1.symm, hkey.2.symm⟩
      · have hx' : x ∈ rest.filter
            (fun g => decide ¬(g.label = f.label ∧ g.params = f.params)) := by
          apply List.mem_filter.mpr
          exact ⟨h, decide_eq_true hkey⟩
        obtain ⟨y, hy, hlab, hpar⟩ := ih x hx'
        exact ⟨y, List.mem_cons_of_mem f hy, hlab, hpar⟩

lemma toFixedVal_eval (d : ℕ) (x : ℝ) (z : ℤ) (hx : 0 ≤ x)
    (h1 : (z : ℝ) ≤ x * 10 ^ d + 1 / 2) (h2 : x * 10 ^ d + 1 / 2 < z + 1) :
    toFixedVal d x = (z : ℝ) / 10 ^ d := by
  unfold toFixedVal
  rw [if_neg (not_lt.mpr hx), abs_of_nonneg hx, one_mul]
  have hfl : ⌊x * 10 ^ d + 1 / 2⌋ = z := Int.floor_eq_iff.mpr ⟨h1, by exact_mod_cast h2⟩
  rw [hfl]

lemma gq_ecc_parts (fmt : ℝ → String) (p : CycloParams)
    (hfire : p.pinCircleRadius / (1.5 * (p.pinCount : ℝ)) < p.eccentricity) :
    ("Eccentricity (" ++ fmt p.eccentricity ++ "mm) is too high for this radius.")
        ∈ (getGeometricQuality fmt p).warnings ∧
      (getGeometricQuality fmt p).fixes.head? = some
        { label := "Reduce Eccentricity",
          description := "Lower E to " ++
            fmt (toFixedVal 2 (p.pinCircleRadius / (2.0 * (p.pinCount : ℝ)))) ++ "mm",
          params :=
            { p with eccentricity := toFixedVal 2 (p.pinCircleRadius / (2.0 * (p.pinCount : ℝ))) } } ∧
      (∃ fx ∈ (getGeometricQuality fmt p).fixes, fx.label = "Increase Radius" ∧
        fx.params =
          { p with pinCircleRadius := toFixedVal 1 (p.eccentricity * 2.0 * (p.pinCount : ℝ)) }) := by
  unfold getGeometricQuality
  simp only [if_pos hfire]
  refine ⟨?_, ?_, ?_⟩
  · exact List.mem_append.mpr (Or.inl (List.mem_append.mpr (Or.inl (List.mem_cons_self _ _))))
  · simp only [List.cons_append, List.nil_append]
    exact dedupFixes_head _ _
  · obtain ⟨y, hy, hlab, hpar⟩ := dedupFixes_key_mem _ _
      (List.mem_append.mpr (Or.inl (List.mem_append.mpr (Or.inl
        (List.mem_cons_of_mem _ (List.mem_cons_self _ _))))))
    exact ⟨y, hy, hlab, hpar⟩

lemma toFixedVal_max_two_pos (x : ℝ) : 0 < toFixedVal 1 (max 2 x) := by
  have h2 : (2 : ℝ) ≤ max 2 x := le_max_left _ _
  unfold toFixedVal
  rw [if_neg (not_lt.mpr (by linarith : (0 : ℝ) ≤ max 2 x)),
    abs_of_nonneg (by linarith), one_mul]
  have hfl : (20 : ℤ) ≤ ⌊max 2 x * 10 ^ 1 + 1 / 2⌋ := by
    apply Int.le_floor.mpr
    push_cast
    nlinarith
  have hcast : (20 : ℝ) ≤ ((⌊max 2 x * 10 ^ 1 + 1 / 2⌋ : ℤ) : ℝ) := by exact_mod_cast hfl
  have : (0 : ℝ) < ((⌊max 2 x * 10 ^ 1 + 1 / 2⌋ : ℤ) : ℝ) := by linarith
  positivity

lemma gq_wall_parts (fmt : ℝ → String) (p : CycloParams)
    (hfire : p.pinCircleRadius - (p.pinCount : ℝ) * p.eccentricity - p.pinRadius <
      p.holeRadius + 1.5) :
    "Wall thickness is critically low." ∈ (getGeometricQuality fmt p).warnings ∧
      (∃ fx ∈ (getGeometricQuality fmt p).fixes, fx.label = "Shrink Center Hole" ∧
        fx.params =
          { p with holeRadius := toFixedVal 1 (max 2 (p.pinCircleRadius - (p.pinCount : ℝ) * p.eccentricity - p.pinRadius - 2.0)) }) := by
  have hpos : 0 < toFixedVal 1
      (max 2 (p.pinCircleRadius - (p.pinCount : ℝ) * p.eccentricity - p.pinRadius - 2.0)) :=
    toFixedVal_max_two_pos _
  unfold getGeometricQuality
  simp only [if_pos hfire, if_pos hpos]
  constructor
  · exact List.mem_append.mpr (Or.inr (List.mem_cons_self _ _))
  · obtain ⟨y, hy, hlab, hpar⟩ := dedupFixes_key_mem _ _
      (List.mem_append.mpr (Or.inr (List.mem_cons_self _ _)))
    exact ⟨y, hy, hlab, hpar⟩

lemma toFixedVal_le_add (d : ℕ) (x : ℝ) (hx : 0 ≤ x) :
    toFixedVal d x ≤ x + 1 / (2 * 10 ^ d) := by
  unfold toFixedVal
  rw [if_neg (not_lt.mpr hx), abs_of_nonneg hx, one_mul]
  rw [div_le_iff (by positivity : (0 : ℝ) < 10 ^ d)]
  calc ((⌊x * 10 ^ d + 1 / 2⌋ : ℤ) : ℝ) ≤ x * 10 ^ d + 1 / 2 := Int.floor_le _
    _ = (x + 1 / (2 * 10 ^ d)) * 10 ^ d := by
        field_simp
        ring

/-- **C3 (amended).**  When `E > R/(1.5·N)`, `getGeometricQuality` warns and
proposes the two eccentricity-rule fixes with the exact rounded values; the
first proposed fix no longer satisfies the trigger *provided*
`0.03·N ≤ R` — for smaller pin circles the half-up rounding of `R/(2N)` to two
decimals can overshoot the threshold and re-trigger the check (see the
counterexample). -/
theorem ecc_rule_fixes_and_no_retrigger (fmt : ℝ → String) (p : CycloParams)
    (hN : 4 ≤ p.pinCount) (hR : 0 < p.pinCircleRadius)
    (hfire : p.pinCircleRadius / (1.5 * (p.pinCount : ℝ)) < p.eccentricity) :
    (getGeometricQuality fmt p).warnings ≠ [] ∧
      ("Eccentricity (" ++ fmt p.eccentricity ++ "mm) is too high for this radius.")
        ∈ (getGeometricQuality fmt p).warnings ∧
      (∃ fx ∈ (getGeometricQuality fmt p).fixes, fx.label = "Reduce Eccentricity" ∧
        fx.params =
          { p with eccentricity := toFixedVal 2 (p.pinCircleRadius / (2.0 * (p.pinCount : ℝ))) }) ∧
      (∃ fx ∈ (getGeometricQuality fmt p).fixes, fx.label = "Increase Radius" ∧
        fx.params =
          { p with pinCircleRadius := toFixedVal 1 (p.eccentricity * 2.0 * (p.pinCount : ℝ)) }) ∧
      (0.03 * (p.pinCount : ℝ) ≤ p.pinCircleRadius →
        ∀ fx, (getGeometricQuality fmt p).fixes.head? = some fx →
          ¬(fx.params.pinCircleRadius / (1.5 * (fx.params.pinCount : ℝ)) <
            fx.params.eccentricity)) := by
  obtain ⟨hw, hhead, hincr⟩ := gq_ecc_parts fmt p hfire
  have hNpos : (0 : ℝ) < (p.pinCount : ℝ) := by
    have : (4 : ℝ) ≤ (p.pinCount : ℝ) := by exact_mod_cast hN
    linarith
  refine ⟨?_, hw, ?_, hincr, ?_⟩
  · intro hnil
    rw [hnil] at hw
    exact absurd hw (List.not_mem_nil _)
  · have hhd := hhead
    cases hcase : (getGeometricQuality fmt p).fixes with
    | nil => rw [hcase] at hhd; exact Option.noConfusion hhd
    | cons a t =>
      rw [hcase] at hhd
      simp only [List.head?_cons, Option.some.injEq] at hhd
      refine ⟨a, ?_, ?_, ?_⟩
      · exact List.mem_cons_self a t
      · rw [hhd]
      · rw [hhd]
  · intro hmargin fx hfx
    rw [hhead, Option.some.injEq] at hfx
    rw [← hfx]
    simp only [not_lt]
    show toFixedVal 2 (p.pinCircleRadius / (2.0 * (p.pinCount : ℝ))) ≤
      p.pinCircleRadius / (1.5 * (p.pinCount : ℝ))
    have hbound := toFixedVal_le_add 2 (p.pinCircleRadius / (2.0 * (p.pinCount : ℝ)))
      (by positivity)
    have hsplit : p.pinCircleRadius / (2.0 * (p.pinCount : ℝ)) +
        p.pinCircleRadius / (6 * (p.pinCount : ℝ)) =
        p.pinCircleRadius / (1.5 * (p.pinCount : ℝ)) := by
      field_simp
      ring
    have hslack : (1 : ℝ) / (2 * 10 ^ 2) ≤ p.pinCircleRadius / (6 * (p.pinCount : ℝ)) := by
      rw [le_div_iff (by positivity : (0 : ℝ) < 6 * (p.pinCount : ℝ))]
      calc (1 : ℝ) / (2 * 10 ^ 2) * (6 * (p.pinCount : ℝ)) = 0.03 * (p.pinCount : ℝ) := by
            ring
        _ ≤ p.pinCircleRadius := hmargin
    linarith

/-- Witness for C3 (amended) at `N = 12`, `R = 50`, `E = 3`. -/
theorem ecc_rule_fixes_and_no_retrigger_witness :
    (getGeometricQuality (fun _ => "")
        ⟨12, 50, 5, 3, 10, 720, 0.15, 0.1, 6, 5, 25, .housingFixed⟩).warnings ≠ [] := by
  exact (ecc_rule_fixes_and_no_retrigger (fun _ => "")
    ⟨12, 50, 5, 3, 10, 720, 0.15, 0.1, 6, 5, 25, .housingFixed⟩
    (by norm_num)
    (by show (0 : ℝ) < 50; norm_num)
    (by show (50 : ℝ) / (1.5 * ((12 : ℕ) : ℝ)) < 3; push_cast; norm_num)).1

/-- The C3 counterexample parameters: `N = 5`, `R = 0.06 mm`, `E = 0.01 mm`. -/
def c3cex : CycloParams := ⟨5, 0.06, 0.01, 0.01, 10, 720, 0.15, 0.1, 6, 5, 25, .housingFixed⟩

/-- **C3 counterexample.**  At `N = 5`, `R = 0.06`, `E = 0.01` the
eccentricity rule fires, and the first proposed fix rounds `R/(2N) = 0.006`
up to `0.01`, which still exceeds the trigger threshold `R/(1.5N) = 0.008` —
applying the first fix re-triggers the eccentricity check, refuting the
claim's final clause. -/
theorem ecc_fix_can_retrigger :
    c3cex.pinCircleRadius / (1.5 * (c3cex.pinCount : ℝ)) < c3cex.eccentricity ∧
      ∃ fx, (getGeometricQuality (fun _ => "") c3cex).fixes.head? = some fx ∧
        fx.label = "Reduce Eccentricity" ∧
        fx.params.pinCircleRadius / (1.5 * (fx.params.pinCount : ℝ)) <
          fx.params.eccentricity := by
  have hfire : c3cex.pinCircleRadius / (1.5 * (c3cex.pinCount : ℝ)) < c3cex.eccentricity := by
    show (0.06 : ℝ) / (1.5 * ((5 : ℕ) : ℝ)) < 0.01
    push_cast
    norm_num
  obtain ⟨hw, hhead, hincr⟩ := gq_ecc_parts (fun _ => "") c3cex hfire
  refine ⟨hfire, _, hhead, rfl, ?_⟩
  show c3cex.pinCircleRadius / (1.5 * (c3cex.pinCount : ℝ)) <
    toFixedVal 2 (c3cex.pinCircleRadius / (2.0 * (c3cex.pinCount : ℝ)))
  have hval : toFixedVal 2 (c3cex.pinCircleRadius / (2.0 * (c3cex.pinCount : ℝ))) =
      ((1 : ℤ) : ℝ) / 10 ^ 2 := by
    apply toFixedVal_eval 2 _ 1
    · show (0 : ℝ) ≤ (0.06 : ℝ) / (2.0 * ((5 : ℕ) : ℝ))
      positivity
    · show ((1 : ℤ) : ℝ) ≤ (0.06 : ℝ) / (2.0 * ((5 : ℕ) : ℝ)) * 10 ^ 2 + 1 / 2
      push_cast
      norm_num
    · show (0.06 : ℝ) / (2.0 * ((5 : ℕ) : ℝ)) * 10 ^ 2 + 1 / 2 < ((1 : ℤ) : ℝ) + 1
      push_cast
      norm_num
  rw [hval]
  show (0.06 : ℝ) / (1.5 * ((5 : ℕ) : ℝ)) < ((1 : ℤ) : ℝ) / 10 ^ 2
  push_cast
  norm_num

/-- **C4 (amended).**  Whenever the wall-thickness rule fires
(`approxInnerRadius < holeRadius + 1.5`), the warning is emitted *and* the
'Shrink Center Hole' fix is always proposed, with
`holeRadius = toFixed1(max(2, approxInnerRadius - 2.0))`: since
`max(2, ·) ≥ 2`, the rounded value is `≥ 2 > 0` and the source's `safeHole > 0`
guard is vacuous — the claimed `approxInnerRadius - 2.0 > 0` precondition for
proposing the fix does not exist in the code. -/
theorem wall_rule_always_proposes_fix (fmt : ℝ → String) (p : CycloParams)
    (hfire : p.pinCircleRadius - (p.pinCount : ℝ) * p.eccentricity - p.pinRadius <
      p.holeRadius + 1.5) :
    "Wall thickness is critically low." ∈ (getGeometricQuality fmt p).warnings ∧
      ∃ fx ∈ (getGeometricQuality fmt p).fixes, fx.label = "Shrink Center Hole" ∧
        fx.params =
          { p with holeRadius := toFixedVal 1 (max 2 (p.pinCircleRadius - (p.pinCount : ℝ) * p.eccentricity - p.pinRadius - 2.0)) } :=
  gq_wall_parts fmt p hfire

/-- Witness for C4 (amended) at `N = 4`, `R = 5`, `E = 1`, `r = 1`,
`holeRadius = 1`, where `approxInnerRadius = 0 < 2.5`. -/
theorem wall_rule_always_proposes_fix_witness :
    "Wall thickness is critically low." ∈
      (getGeometricQuality (fun _ => "")
        ⟨4, 5, 1, 1, 1, 720, 0.15, 0.1, 6, 5, 25, .housingFixed⟩).warnings := by
  exact (wall_rule_always_proposes_fix (fun _ => "")
    ⟨4, 5, 1, 1, 1, 720, 0.15, 0.1, 6, 5, 25, .housingFixed⟩
    (by show (5 : ℝ) - ((4 : ℕ) : ℝ) * 1 - 1 < 1 + 1.5; push_cast; norm_num)).1

/-- The C4 counterexample parameters: `approxInnerRadius = 0`, so
`approxInnerRadius - 2.0 ≤ 0`, yet the hole fix is proposed. -/
def c4cex : CycloParams := ⟨4, 5, 1, 1, 1, 720, 0.15, 0.1, 6, 5, 25, .housingFixed⟩

/-- **C4 counterexample.**  The wall rule fires with
`approxInnerRadius - 2.0 = -2 ≤ 0`, and the 'Shrink Center Hole' fix is
nevertheless proposed (with `holeRadius = 2`), refuting the claim that the
fix is only proposed when `approxInnerRadius - 2.0 > 0`. -/
theorem wall_fix_without_margin :
    c4cex.pinCircleRadius - (c4cex.pinCount : ℝ) * c4cex.eccentricity - c4cex.pinRadius <
        c4cex.holeRadius + 1.5 ∧
      c4cex.pinCircleRadius - (c4cex.pinCount : ℝ) * c4cex.eccentricity - c4cex.pinRadius -
        2.0 ≤ 0 ∧
      ∃ fx ∈ (getGeometricQuality (fun _ => "") c4cex).fixes,
        fx.label = "Shrink Center Hole" ∧ fx.params.holeRadius = 2 := by
  have hfire : c4cex.pinCircleRadius - (c4cex.pinCount : ℝ) * c4cex.eccentricity -
      c4cex.pinRadius < c4cex.holeRadius + 1.5 := by
    show (5 : ℝ) - ((4 : ℕ) : ℝ) * 1 - 1 < 1 + 1.5
    push_cast
    norm_num
  obtain ⟨hw, fx, hfx, hlab, hpar⟩ := gq_wall_parts (fun _ => "") c4cex hfire
  refine ⟨hfire, ?_, fx, hfx, hlab, ?_⟩
  · show (5 : ℝ) - ((4 : ℕ) : ℝ) * 1 - 1 - 2.0 ≤ 0
    push_cast
    norm_num
  · rw [hpar]
    show toFixedVal 1 (max 2 (c4cex.pinCircleRadius - (c4cex.pinCount : ℝ) * c4cex.eccentricity - c4cex.pinRadius - 2.0)) = 2
    have hmax : max 2 (c4cex.pinCircleRadius - (c4cex.pinCount : ℝ) * c4cex.eccentricity -
        c4cex.pinRadius - 2.0) = 2 := by
      apply max_eq_left
      show (5 : ℝ) - ((4 : ℕ) : ℝ) * 1 - 1 - 2.0 ≤ 2
      push_cast
      norm_num
    rw [hmax]
    have := toFixedVal_eval 1 2 20 (by norm_num) (by push_cast; norm_num)
      (by push_cast; norm_num)
    rw [this]
    push_cast
    norm_num

/-- Frame condition for a proposed fix: its parameter record agrees with the
input on every field other than the single field its label targets (the
target field itself may or may not actually differ). -/
def fixFrame (p : CycloParams) (fx : GeometricFix) : Prop :=
  (fx.label = "Reduce Eccentricity" ∧
      fx.params = { p with eccentricity := fx.params.eccentricity }) ∨
    (fx.label = "Increase Radius" ∧
      fx.params = { p with pinCircleRadius := fx.params.pinCircleRadius }) ∨
    (fx.label = "Shrink Pins" ∧
      fx.params = { p with pinRadius := fx.params.pinRadius }) ∨
    (fx.label = "Shrink Center Hole" ∧
      fx.params = { p with holeRadius := fx.params.holeRadius })

/-- **C10 (amended).**  Every fix proposed by `getGeometricQuality` carries a
parameter record identical to the input in all fields except *at most* the
one field named by its label (rounding coincidences can make even that field
equal — see the counterexample to "exactly one"). -/
theorem fixes_change_at_most_one_field (fmt : ℝ → String) (p : CycloParams) :
    List.Forall (fixFrame p) (getGeometricQuality fmt p).fixes := by
  rw [List.forall_iff_forall_mem]
  intro fx hfx
  simp only [getGeometricQuality] at hfx
  have hmem := dedupFixes_subset _ fx hfx
  rcases List.mem_append.mp hmem with h12 | h3
  · rcases List.mem_append.mp h12 with h1 | h2
    · split at h1
      · rcases List.mem_cons.mp h1 with he | he
        · subst he
          unfold fixFrame
          left
          exact ⟨rfl, rfl⟩
        · rcases List.mem_cons.mp he with he2 | he2
          · subst he2
            unfold fixFrame
            right; left
            exact ⟨rfl, rfl⟩
          · exact absurd he2 (List.not_mem_nil fx)
      · exact absurd h1 (List.not_mem_nil fx)
    · split at h2
      · rcases List.mem_cons.mp h2 with he | he
        · subst he
          unfold fixFrame
          right; right; left
          exact ⟨rfl, rfl⟩
        · exact absurd he (List.not_mem_nil fx)
      · exact absurd h2 (List.not_mem_nil fx)
  · split at h3
    · split at h3
      · rcases List.mem_cons.mp h3 with he | he
        · subst he
          unfold fixFrame
          right; right; right
          exact ⟨rfl, rfl⟩
        · exact absurd he (List.not_mem_nil fx)
      · exact absurd h3 (List.not_mem_nil fx)
    · exact absurd h3 (List.not_mem_nil fx)

/-- The C10 counterexample parameters: `holeRadius = 2` already equals the
value the wall-rule fix proposes. -/
def c10cex : CycloParams := ⟨4, 10, 2, 1.25, 2, 720, 0.15, 0.1, 6, 5, 25, .housingFixed⟩

/-- **C10 counterexample.**  At `c10cex` the wall rule fires and proposes a
'Shrink Center Hole' fix whose parameter record equals the input record in
*every* field (the proposed `holeRadius` rounds to the input value `2`), so
"identical in all fields except exactly one" fails — the fix changes no field
at all. -/
theorem fix_can_change_no_field :
    ∃ fx ∈ (getGeometricQuality (fun _ => "") c10cex).fixes, fx.params = c10cex := by
  have hfire : c10cex.pinCircleRadius - (c10cex.pinCount : ℝ) * c10cex.eccentricity -
      c10cex.pinRadius < c10cex.holeRadius + 1.5 := by
    show (10 : ℝ) - ((4 : ℕ) : ℝ) * 1.25 - 2 < 2 + 1.5
    push_cast
    norm_num
  obtain ⟨hw, fx, hfx, hlab, hpar⟩ := gq_wall_parts (fun _ => "") c10cex hfire
  refine ⟨fx, hfx, ?_⟩
  rw [hpar]
  have hmax : max 2 (c10cex.pinCircleRadius - (c10cex.pinCount : ℝ) * c10cex.eccentricity -
      c10cex.pinRadius - 2.0) = 2 := by
    apply max_eq_left
    show (10 : ℝ) - ((4 : ℕ) : ℝ) * 1.25 - 2 - 2.0 ≤ 2
    push_cast
    norm_num
  rw [hmax]
  have hval : toFixedVal 1 (2 : ℝ) = 2 := by
    have h20 := toFixedVal_eval 1 2 20 (by norm_num) (by push_cast; norm_num)
      (by push_cast; norm_num)
    rw [h20]
    push_cast
    norm_num
  rw [hval]
  rfl

/-- Left-pad a digit string with zeros to width `d` (decimal-part padding of
`toFixed`). -/
def zeroPad (d : ℕ) (s : String) : String :=
  String.mk (List.replicate (d - s.length) '0') ++ s

/-- JavaScript `x.toFixed(d)` as a string over the reals: round `|x|` half-up
to `d` decimals (ECMAScript picks the larger candidate on ties) and print
sign, integer part, and zero-padded fraction. -/
def jsToFixed (d : ℕ) (x : ℝ) : String :=
  let sign := if x < 0 then "-" else ""
  let n : ℕ := (⌊|x| * 10 ^ d + 1 / 2⌋).toNat
  sign ++ Nat.repr (n / 10 ^ d) ++ "." ++ zeroPad d (Nat.repr (n % 10 ^ d))

/-- `generateDXF` from `src/utils/dxf.ts`, the successive `dxf +=` string
concatenations rendered as one append chain in source order; the `holes`
argument is accepted and, as in the source, never used. -/
def generateDXF (points : List Point) (holes : List Point) (params : CycloParams) :
    String :=
  let effectiveHoleRadius := params.holeRadius + params.holeTolerance
  "0\nSECTION\n2\nENTITIES\n" ++
    "0\nPOLYLINE\n8\nCycloidProfile\n66\n1\n70\n1\n" ++
    String.join (points.map (fun p =>
      "0\nVERTEX\n8\nCycloidProfile\n" ++
        ("10\n" ++ jsToFixed 4 p.x ++ "\n20\n" ++ jsToFixed 4 p.y ++ "\n30\n0.0\n"))) ++
    "0\nSEQEND\n" ++
    "0\nCIRCLE\n8\nCenterHole\n" ++
    "10\n0.0\n20\n0.0\n30\n0.0\n" ++
    ("40\n" ++ jsToFixed 4 effectiveHoleRadius ++ "\n") ++
    "0\nENDSEC\n0\nEOF\n"

/-- Spec-side DXF document model, following the spec's words: a document is a
list of entities, each either one closed polyline on a layer with its
vertices, or one circle on a layer with centre and radius fields. -/
inductive DxfEntity where
  | polyline (layer : String) (closed : Bool) (vertices : List (String × String)) : DxfEntity
  | circle (layer cx cy cz radius : String) : DxfEntity

/-- Spec-side rendering of one vertex: `VERTEX (x, y, z=0)` on the layer. -/
def renderVertexSpec (layer : String) (v : String × String) : String :=
  "0\nVERTEX\n8\n" ++ layer ++ "\n10\n" ++ v.1 ++ "\n20\n" ++ v.2 ++ "\n30\n0.0\n"

/-- Spec-side rendering of one entity per the spec's framing:
`POLYLINE(layer, closed) VERTEX* SEQEND` or
`CIRCLE(layer, center, radius)`. -/
def renderEntitySpec : DxfEntity → String
  | .polyline layer closed vs =>
    "0\nPOLYLINE\n8\n" ++ layer ++ "\n66\n1\n70\n" ++ (if closed then "1" else "0") ++ "\n" ++
      String.join (vs.map (renderVertexSpec layer)) ++ "0\nSEQEND\n"
  | .circle layer cx cy cz radius =>
    "0\nCIRCLE\n8\n" ++ layer ++ "\n10\n" ++ cx ++ "\n20\n" ++ cy ++ "\n30\n" ++ cz ++
      "\n40\n" ++ radius ++ "\n"

/-- Spec-side rendering of a document: `SECTION/ENTITIES`, the entities, then
`ENDSEC/EOF`. -/
def renderDocSpec (es : List DxfEntity) : String :=
  "0\nSECTION\n2\nENTITIES\n" ++ String.join (es.map renderEntitySpec) ++ "0\nENDSEC\n0\nEOF\n"

lemma strMerge (s1 s2 s12 : String) (h : s1 ++ s2 = s12) (x : String) :
    s1 ++ (s2 ++ x) = s12 ++ x := by
  rw [← String.append_assoc, h]

lemma dxfM1 (x : String) :
    "0\nVERTEX\n8\n" ++ ("CycloidProfile" ++ x) = "0\nVERTEX\n8\nCycloidProfile" ++ x :=
  strMerge _ _ _ (by decide) x

lemma dxfM2 (x : String) :
    "0\nVERTEX\n8\nCycloidProfile" ++ ("\n10\n" ++ x) = "0\nVERTEX\n8\nCycloidProfile\n10\n" ++ x :=
  strMerge _ _ _ (by decide) x

lemma dxfM3 (x : String) :
    "0\nVERTEX\n8\nCycloidProfile\n" ++ ("10\n" ++ x) = "0\nVERTEX\n8\nCycloidProfile\n10\n" ++ x :=
  strMerge _ _ _ (by decide) x

lemma dxfM4 (x : String) :
    "0\nSECTION\n2\nENTITIES\n" ++ ("0\nPOLYLINE\n8\nCycloidProfile\n66\n1\n70\n1\n" ++ x) = "0\nSECTION\n2\nENTITIES\n0\nPOLYLINE\n8\nCycloidProfile\n66\n1\n70\n1\n" ++ x :=
  strMerge _ _ _ (by decide) x

lemma dxfM5 (x : String) :
    "0\nSEQEND\n" ++ ("0\nCIRCLE\n8\nCenterHole\n" ++ x) = "0\nSEQEND\n0\nCIRCLE\n8\nCenterHole\n" ++ x :=
  strMerge _ _ _ (by decide) x

lemma dxfM6 (x : String) :
    "0\nSEQEND\n0\nCIRCLE\n8\nCenterHole\n" ++ ("10\n0.0\n20\n0.0\n30\n0.0\n" ++ x) = "0\nSEQEND\n0\nCIRCLE\n8\nCenterHole\n10\n0.0\n20\n0.0\n30\n0.0\n" ++ x :=
  strMerge _ _ _ (by decide) x

lemma dxfM7 (x : String) :
    "0\nSEQEND\n0\nCIRCLE\n8\nCenterHole\n10\n0.0\n20\n0.0\n30\n0.0\n" ++ ("40\n" ++ x) = "0\nSEQEND\n0\nCIRCLE\n8\nCenterHole\n10\n0.0\n20\n0.0\n30\n0.0\n40\n" ++ x :=
  strMerge _ _ _ (by decide) x

lemma dxfM8 (x : String) :
    "0\nSECTION\n2\nENTITIES\n" ++ ("0\nPOLYLINE\n8\n" ++ x) = "0\nSECTION\n2\nENTITIES\n0\nPOLYLINE\n8\n" ++ x :=
  strMerge _ _ _ (by decide) x

lemma dxfM9 (x : String) :
    "0\nSECTION\n2\nENTITIES\n0\nPOLYLINE\n8\n" ++ ("CycloidProfile" ++ x) = "0\nSECTION\n2\nENTITIES\n0\nPOLYLINE\n8\nCycloidProfile" ++ x :=
  strMerge _ _ _ (by decide) x

lemma dxfM10 (x : String) :
    "0\nSECTION\n2\nENTITIES\n0\nPOLYLINE\n8\nCycloidProfile" ++ ("\n66\n1\n70\n" ++ x) = "0\nSECTION\n2\nENTITIES\n0\nPOLYLINE\n8\nCycloidProfile\n66\n1\n70\n" ++ x :=
  strMerge _ _ _ (by decide) x

lemma dxfM11 (x : String) :
    "0\nSECTION\n2\nENTITIES\n0\nPOLYLINE\n8\nCycloidProfile\n66\n1\n70\n" ++ ("1" ++ x) = "0\nSECTION\n2\nENTITIES\n0\nPOLYLINE\n8\nCycloidProfile\n66\n1\n70\n1" ++ x :=
  strMerge _ _ _ (by decide) x

lemma dxfM12 (x : String) :
    "0\nSECTION\n2\nENTITIES\n0\nPOLYLINE\n8\nCycloidProfile\n66\n1\n70\n1" ++ ("\n" ++ x) = "0\nSECTION\n2\nENTITIES\n0\nPOLYLINE\n8\nCycloidProfile\n66\n1\n70\n1\n" ++ x :=
  strMerge _ _ _ (by decide) x

lemma dxfM13 (x : String) :
    "0\nSEQEND\n" ++ ("0\nCIRCLE\n8\n" ++ x) = "0\nSEQEND\n0\nCIRCLE\n8\n" ++ x :=
  strMerge _ _ _ (by decide) x

lemma dxfM14 (x : String) :
    "0\nSEQEND\n0\nCIRCLE\n8\n" ++ ("CenterHole" ++ x) = "0\nSEQEND\n0\nCIRCLE\n8\nCenterHole" ++ x :=
  strMerge _ _ _ (by decide) x

lemma dxfM15 (x : String) :
    "0\nSEQEND\n0\nCIRCLE\n8\nCenterHole" ++ ("\n10\n" ++ x) = "0\nSEQEND\n0\nCIRCLE\n8\nCenterHole\n10\n" ++ x :=
  strMerge _ _ _ (by decide) x

lemma dxfM16 (x : String) :
    "0\nSEQEND\n0\nCIRCLE\n8\nCenterHole\n10\n" ++ ("0.0" ++ x) = "0\nSEQEND\n0\nCIRCLE\n8\nCenterHole\n10\n0.0" ++ x :=
  strMerge _ _ _ (by decide) x

lemma dxfM17 (x : String) :
    "0\nSEQEND\n0\nCIRCLE\n8\nCenterHole\n10\n0.0" ++ ("\n20\n" ++ x) = "0\nSEQEND\n0\nCIRCLE\n8\nCenterHole\n10\n0.0\n20\n" ++ x :=
  strMerge _ _ _ (by decide) x

lemma dxfM18 (x : String) :
    "0\nSEQEND\n0\nCIRCLE\n8\nCenterHole\n10\n0.0\n20\n" ++ ("0.0" ++ x) = "0\nSEQEND\n0\nCIRCLE\n8\nCenterHole\n10\n0.0\n20\n0.0" ++ x :=
  strMerge _ _ _ (by decide) x

lemma dxfM19 (x : String) :
    "0\nSEQEND\n0\nCIRCLE\n8\nCenterHole\n10\n0.0\n20\n0.0" ++ ("\n30\n" ++ x) = "0\nSEQEND\n0\nCIRCLE\n8\nCenterHole\n10\n0.0\n20\n0.0\n30\n" ++ x :=
  strMerge _ _ _ (by decide) x

lemma dxfM20 (x : String) :
    "0\nSEQEND\n0\nCIRCLE\n8\nCenterHole\n10\n0.0\n20\n0.0\n30\n" ++ ("0.0" ++ x) = "0\nSEQEND\n0\nCIRCLE\n8\nCenterHole\n10\n0.0\n20\n0.0\n30\n0.0" ++ x :=
  strMerge _ _ _ (by decide) x

lemma dxfM21 (x : String) :
    "0\nSEQEND\n0\nCIRCLE\n8\nCenterHole\n10\n0.0\n20\n0.0\n30\n0.0" ++ ("\n40\n" ++ x) = "0\nSEQEND\n0\nCIRCLE\n8\nCenterHole\n10\n0.0\n20\n0.0\n30\n0.0\n40\n" ++ x :=
  strMerge _ _ _ (by decide) x

lemma dxfM22 :
    ("\n" : String) ++ "0\nENDSEC\n0\nEOF\n" = "\n0\nENDSEC\n0\nEOF\n" := by decide

lemma join_pair (a b : String) : String.join [a, b] = a ++ b := by
  simp [String.join]

/-- **C7.**  `generateDXF` renders exactly the spec-mandated document: one
closed `POLYLINE` on layer `CycloidProfile` with one `VERTEX (x, y, z=0)` per
input point at 4-decimal precision, then one `CIRCLE` on layer `CenterHole`
centred at the origin whose radius field is `holeRadius + holeTolerance` at
4 decimals, framed by `SECTION/ENTITIES` and `ENDSEC/EOF`; and in the export
scenario `holeRadius = 10`, `holeTolerance = 0.1` the circle radius string is
`10.1000`. -/
theorem generateDXF_renders_spec_document :
    (∀ (points holes : List Point) (params : CycloParams),
      generateDXF points holes params = renderDocSpec
        [DxfEntity.polyline "CycloidProfile" true
            (points.map (fun p => (jsToFixed 4 p.x, jsToFixed 4 p.y))),
          DxfEntity.circle "CenterHole" "0.0" "0.0" "0.0"
            (jsToFixed 4 (params.holeRadius + params.holeTolerance))]) ∧
      jsToFixed 4 ((10 : ℝ) + 0.1) = "10.1000" := by
  constructor
  · intro points holes params
    unfold generateDXF renderDocSpec
    simp only [List.map_cons, List.map_nil, join_pair, renderEntitySpec, renderVertexSpec,
      List.map_map, Function.comp_def]
    simp only [if_true]
    simp only [String.append_assoc]
    simp only [dxfM1, dxfM2, dxfM3, dxfM4, dxfM5, dxfM6, dxfM7, dxfM8, dxfM9, dxfM10, dxfM11, dxfM12, dxfM13, dxfM14, dxfM15, dxfM16, dxfM17, dxfM18, dxfM19, dxfM20, dxfM21, dxfM22]
  · have hfl : ⌊|(10 : ℝ) + 0.1| * 10 ^ 4 + 1 / 2⌋ = (101000 : ℤ) := by
      rw [abs_of_nonneg (by norm_num : (0 : ℝ) ≤ (10 : ℝ) + 0.1)]
      apply Int.floor_eq_iff.mpr
      constructor
      · push_cast
        norm_num
      · push_cast
        norm_num
    unfold jsToFixed
    rw [if_neg (by norm_num : ¬((10 : ℝ) + 0.1 < 0)), hfl]
    decide

/-- **C9.**  The output of `generateDXF` does not depend on its `holes`
argument: the parameter is never read, so the exported document contains only
the profile polyline and the centre-bore circle, never the output-pin hole
geometry. -/
theorem generateDXF_ignores_holes (points h1 h2 : List Point) (params : CycloParams) :
    generateDXF points h1 params = generateDXF points h2 params := rfl

/-- `d3.line().x(.x).y(.y).curve(d3.curveLinearClosed)` applied to a point
list.  Modelled from the spec: the d3 line generator is an external library
collaborator; per its documented behaviour it returns `null` (rendered here
as the empty string the source's `|| ""` substitutes) for an empty input and
otherwise a closed `M … L … Z` path through the points, with numbers written
by the formatter `fmt`. -/
def d3LineClosed (fmt : ℝ → String) : List Point → String
  | [] => ""
  | p :: rest =>
    "M" ++ fmt p.x ++ "," ++ fmt p.y ++
      String.join (rest.map (fun q => "L" ++ fmt q.x ++ "," ++ fmt q.y)) ++ "Z"

/-- `getDiscSVGPath` from `src/utils/geometry.ts`: the closed outline path
followed by one two-arc circle per output pin, drawn in reverse winding.
JavaScript's implicit number-to-string conversion inside the template
literals is abstracted by the formatter `fmt`. -/
def getDiscSVGPath (fmt : ℝ → String) (profilePoints : List Point)
    (params : CycloParams) : String :=
  let pathD := d3LineClosed fmt profilePoints
  let holeR := params.outputPinRadius + params.eccentricity + params.holeTolerance
  let numHoles := params.outputPinCount
  let holeDist := params.outputPinCircleRadius
  pathD ++ String.join ((List.range numHoles).map (fun i =>
    let angle := ((i : ℝ) / (numHoles : ℝ)) * (2 * π)
    let cx := holeDist * Real.cos angle
    let cy := holeDist * Real.sin angle
    " M " ++ fmt (cx + holeR) ++ " " ++ fmt cy ++
      " A " ++ fmt holeR ++ " " ++ fmt holeR ++ " 0 1 0 " ++ fmt (cx - holeR) ++ " " ++ fmt cy ++
      " A " ++ fmt holeR ++ " " ++ fmt holeR ++ " 0 1 0 " ++ fmt (cx + holeR) ++ " " ++ fmt cy))

/-- Spec-side hole cutout, following the spec's words: a circle of radius `r`
about centre `c` drawn as two complementary half-circle arcs (from
`(cx + r, cy)` to `(cx - r, cy)` and back, sweep flag `0`), wound opposite to
the outline so that the even-odd fill rule voids it from the disc. -/
def holeCutoutSpec (fmt : ℝ → String) (c : ℝ × ℝ) (r : ℝ) : String :=
  " M " ++ fmt (c.1 + r) ++ " " ++ fmt c.2 ++
    " A " ++ fmt r ++ " " ++ fmt r ++ " 0 1 0 " ++ fmt (c.1 - r) ++ " " ++ fmt c.2 ++
    " A " ++ fmt r ++ " " ++ fmt r ++ " 0 1 0 " ++ fmt (c.1 + r) ++ " " ++ fmt c.2

/-- **C8.**  For every formatter, point list and parameter set,
`getDiscSVGPath` appends after the closed outline exactly `outputPinCount`
hole cutouts, the `i`-th centred at angle `2·π·i / outputPinCount` on the
circle of radius `outputPinCircleRadius`, each of radius
`outputPinRadius + eccentricity + holeTolerance` and drawn as the two
complementary reverse-wound half-circle arcs; in particular the hole at
index `0` is centred at angle `0`, i.e. at `(outputPinCircleRadius, 0)`. -/
theorem discSVGPath_appends_hole_cutouts (fmt : ℝ → String)
    (profilePoints : List Point) (params : CycloParams) :
    getDiscSVGPath fmt profilePoints params =
        d3LineClosed fmt profilePoints ++
          String.join ((List.range params.outputPinCount).map (fun i =>
            holeCutoutSpec fmt
              (params.outputPinCircleRadius *
                  Real.cos (2 * π * (i : ℝ) / (params.outputPinCount : ℝ)),
                params.outputPinCircleRadius *
                  Real.sin (2 * π * (i : ℝ) / (params.outputPinCount : ℝ)))
              (params.outputPinRadius + params.eccentricity + params.holeTolerance))) ∧
      params.outputPinCircleRadius *
          Real.cos (2 * π * ((0 : ℕ) : ℝ) / (params.outputPinCount : ℝ)) =
        params.outputPinCircleRadius ∧
      params.outputPinCircleRadius *
          Real.sin (2 * π * ((0 : ℕ) : ℝ) / (params.outputPinCount : ℝ)) = 0 := by
  refine ⟨?_, ?_, ?_⟩
  · unfold getDiscSVGPath holeCutoutSpec
    refine congrArg (d3LineClosed fmt profilePoints ++ ·) ?_
    refine congrArg String.join ?_
    refine List.map_congr_left ?_
    intro i _
    have hangle : ((i : ℝ) / (params.outputPinCount : ℝ)) * (2 * π) =
        2 * π * (i : ℝ) / (params.outputPinCount : ℝ) := by
      ring
    rw [hangle]
  · rw [show 2 * π * ((0 : ℕ) : ℝ) / (params.outputPinCount : ℝ) = 0 by
      push_cast; ring]
    rw [Real.cos_zero, mul_one]
  · rw [show 2 * π * ((0 : ℕ) : ℝ) / (params.outputPinCount : ℝ) = 0 by
      push_cast; ring]
    rw [Real.sin_zero, mul_zero]
